import Mathlib

/-!
Shallow embedding of the news ingestion pipeline of news_bot_patched.py
(link resolution, media location, media cache, sent-ledger, batch assembly),
with the Python standard-library behaviors the code relies on
(urllib.parse.urlparse/parse_qs/unquote, base64.urlsafe_b64decode with
non-strict binascii semantics, UTF-8 decoding with ignore/replace error
handlers, str.strip truthiness, re.findall for the two literal patterns used).

Strings are modeled as Lean String (sequences of unicode scalars, matching
Python str); bytes are modeled as Nat values below 256.  Network and
filesystem effects are modeled as explicit oracle environments, with call
counters where a claim is about whether a call happens.  All recursion is
structural or fuel-based (fuel chosen as an exact bound on the iteration
count) so every definition evaluates by kernel reduction.
-/

namespace NewsBot

/-- Python str truthiness for optional strings: None and the empty string are falsy. -/
def pyTruthy : Option String → Bool
  | none => false
  | some s => s ≠ ""

/-- Python `a or b` on two optional strings (first truthy value, else the second operand). -/
def pyOr (a b : Option String) : Option String :=
  match a with
  | some s => if s = "" then b else some s
  | none => b

/-- Characters removed by Python str.strip() with no argument (whitespace per str.isspace). -/
def pyWhitespaceChar (c : Char) : Bool :=
  let n := c.toNat
  n = 32 || n = 9 || n = 10 || n = 13 || n = 11 || n = 12 ||
    (28 ≤ n && n ≤ 31) || n = 133 || n = 160

/-- Python str.strip(): drop whitespace from both ends. -/
def pyStrip (s : String) : String :=
  String.mk (((s.toList.dropWhile pyWhitespaceChar).reverse.dropWhile pyWhitespaceChar).reverse)

/-- Python str.lower restricted to ASCII letters (all call sites pass ASCII-relevant data). -/
def pyLower (s : String) : String :=
  String.mk (s.toList.map Char.toLower)

/-- Python s.startswith(p). -/
def pyStartsWith (s p : String) : Bool :=
  p.toList.isPrefixOf s.toList

/-- Python s.endswith(p). -/
def pyEndsWith (s p : String) : Bool :=
  p.toList.isSuffixOf s.toList

/-- Whether needle occurs as a contiguous sublist of the list. -/
def hasSubList (needle : List Char) : List Char → Bool
  | [] => needle.isEmpty
  | c :: rest => needle.isPrefixOf (c :: rest) || hasSubList needle rest

/-- Python `needle in hay` on strings (substring containment). -/
def strContains (hay needle : String) : Bool :=
  hasSubList needle.toList hay.toList

/-- Split at the first occurrence of sep: some (before, after), or none when absent. -/
def splitFirstAt (sep : List Char) : List Char → Option (List Char × List Char)
  | [] => if sep.isEmpty then some ([], []) else none
  | c :: rest =>
    if !sep.isEmpty && sep.isPrefixOf (c :: rest) then
      some ([], (c :: rest).drop sep.length)
    else
      match splitFirstAt sep rest with
      | some (a, b) => some (c :: a, b)
      | none => none

/-- Python s.split(sep, 1): the part before the first sep, and the part after when sep occurs. -/
def pySplit1 (s sep : String) : String × Option String :=
  match splitFirstAt sep.toList s.toList with
  | some (a, b) => (String.mk a, some (String.mk b))
  | none => (s, none)

/-- Fuel-driven worker for pySplitAll; each split consumes at least one character. -/
def pySplitAllGo (sep : List Char) : Nat → List Char → List (List Char)
  | 0, l => [l]
  | fuel + 1, l =>
    match splitFirstAt sep l with
    | some (a, b) => a :: pySplitAllGo sep fuel b
    | none => [l]

/-- Python s.split(sep) for a nonempty separator. -/
def pySplitAll (s sep : String) : List String :=
  (pySplitAllGo sep.toList s.toList.length s.toList).map String.mk

/-! ## urllib.parse.urlparse (the fields the program reads: netloc, path, query) -/

structure UrlParts where
  scheme : String
  netloc : String
  path : String
  query : String
  fragment : String
deriving DecidableEq, Repr

/-- Characters allowed in a URL scheme after the leading letter. -/
def isSchemeChar (c : Char) : Bool :=
  c.isAlphanum || c = '+' || c = '-' || c = '.'

/-- Split off a scheme at the first colon when the part before it is a valid scheme. -/
def splitScheme (url : String) : String × String :=
  match splitFirstAt [':'] url.toList with
  | some (before, after) =>
    if !before.isEmpty && (before.headD ' ').isAlpha && before.all isSchemeChar then
      (String.mk (before.map Char.toLower), String.mk after)
    else ("", url)
  | none => ("", url)

/-- urllib.parse.urlparse, for the shapes of URL the program handles:
scheme up to the first colon, netloc after a leading double slash up to the
first slash, question mark or hash, then fragment split at the first hash
and query at the first question mark. -/
def urlparse (url : String) : UrlParts :=
  let (scheme, rest0) := splitScheme url
  let restL := rest0.toList
  let (netloc, rest1) :=
    if ['/', '/'].isPrefixOf restL then
      let r := restL.drop 2
      (String.mk (r.takeWhile (fun c => c ≠ '/' && c ≠ '?' && c ≠ '#')),
       r.dropWhile (fun c => c ≠ '/' && c ≠ '?' && c ≠ '#'))
    else ("", restL)
  let (beforeFrag, frag) :=
    match splitFirstAt ['#'] rest1 with
    | some (a, b) => (a, String.mk b)
    | none => (rest1, "")
  let (path, query) :=
    match splitFirstAt ['?'] beforeFrag with
    | some (a, b) => (String.mk a, String.mk b)
    | none => (String.mk beforeFrag, "")
  ⟨scheme, netloc, path, query, frag⟩

/-! ## UTF-8 decoding with the ignore / replace error handlers

Bytes are Nats below 256.  On a decode error the handler consumes the maximal
subpart (the lead byte together with the valid continuation bytes seen so
far), emitting U+FFFD in replace mode and nothing in ignore mode, matching
CPython's handling. -/

/-- A UTF-8 continuation byte. -/
def utf8Cont (b : Nat) : Bool := 128 ≤ b && b ≤ 191

/-- Fuel-driven UTF-8 decoder; fuel bounds the byte count (each step consumes at least one byte). -/
def utf8DecodeGo (ignoreErrors : Bool) : Nat → List Nat → List Char
  | 0, _ => []
  | _, [] => []
  | fuel + 1, b :: rest =>
    let errOut : List Char := if ignoreErrors then [] else [Char.ofNat 0xFFFD]
    if b < 128 then
      Char.ofNat b :: utf8DecodeGo ignoreErrors fuel rest
    else if 194 ≤ b && b ≤ 223 then
      match rest with
      | c1 :: r2 =>
        if utf8Cont c1 then
          Char.ofNat ((b - 192) * 64 + (c1 - 128)) :: utf8DecodeGo ignoreErrors fuel r2
        else errOut ++ utf8DecodeGo ignoreErrors fuel rest
      | [] => errOut
    else if 224 ≤ b && b ≤ 239 then
      let lo := if b = 224 then 160 else 128
      let hi := if b = 237 then 159 else 191
      match rest with
      | c1 :: rest1 =>
        if lo ≤ c1 && c1 ≤ hi then
          match rest1 with
          | c2 :: rest2 =>
            if utf8Cont c2 then
              Char.ofNat ((b - 224) * 4096 + (c1 - 128) * 64 + (c2 - 128)) ::
                utf8DecodeGo ignoreErrors fuel rest2
            else errOut ++ utf8DecodeGo ignoreErrors fuel rest1
          | [] => errOut
        else errOut ++ utf8DecodeGo ignoreErrors fuel rest
      | [] => errOut
    else if 240 ≤ b && b ≤ 244 then
      let lo := if b = 240 then 144 else 128
      let hi := if b = 244 then 143 else 191
      match rest with
      | c1 :: rest1 =>
        if lo ≤ c1 && c1 ≤ hi then
          match rest1 with
          | c2 :: rest2 =>
            if utf8Cont c2 then
              match rest2 with
              | c3 :: rest3 =>
                if utf8Cont c3 then
                  Char.ofNat ((b - 240) * 262144 + (c1 - 128) * 4096 +
                      (c2 - 128) * 64 + (c3 - 128)) ::
                    utf8DecodeGo ignoreErrors fuel rest3
                else errOut ++ utf8DecodeGo ignoreErrors fuel rest2
              | [] => errOut
            else errOut ++ utf8DecodeGo ignoreErrors fuel rest1
          | [] => errOut
        else errOut ++ utf8DecodeGo ignoreErrors fuel rest
      | [] => errOut
    else errOut ++ utf8DecodeGo ignoreErrors fuel rest

/-- bytes.decode("utf-8", "ignore") when ignoreErrors, else errors="replace". -/
def utf8Decode (ignoreErrors : Bool) (bs : List Nat) : String :=
  String.mk (utf8DecodeGo ignoreErrors bs.length bs)

/-! ## Percent decoding (urllib.parse.unquote / unquote_plus, errors="replace") -/

/-- Hexadecimal digit value. -/
def hexVal (c : Char) : Option Nat :=
  let n := c.toNat
  if 48 ≤ n && n ≤ 57 then some (n - 48)
  else if 97 ≤ n && n ≤ 102 then some (n - 97 + 10)
  else if 65 ≤ n && n ≤ 70 then some (n - 65 + 10)
  else none

/-- Collect a maximal run of percent-escaped bytes; returns the bytes and the remainder. -/
def gatherPct : Nat → List Char → List Nat × List Char
  | 0, l => ([], l)
  | fuel + 1, l =>
    match l with
    | '%' :: h1 :: h2 :: rest =>
      match hexVal h1, hexVal h2 with
      | some a, some b =>
        let (bs, rem) := gatherPct fuel rest
        ((a * 16 + b) :: bs, rem)
      | _, _ => ([], l)
    | _ => ([], l)

/-- Fuel-driven worker for pyUnquote. -/
def unquoteGo : Nat → List Char → List Char
  | 0, _ => []
  | _, [] => []
  | fuel + 1, c :: rest =>
    if c = '%' then
      let (bs, rem) := gatherPct (c :: rest).length (c :: rest)
      match bs with
      | [] => c :: unquoteGo fuel rest
      | _ :: _ => (utf8Decode false bs).toList ++ unquoteGo fuel rem
    else c :: unquoteGo fuel rest

/-- urllib.parse.unquote: percent-escape runs are decoded as UTF-8 with errors="replace". -/
def pyUnquote (s : String) : String :=
  String.mk (unquoteGo s.toList.length s.toList)

/-- urllib.parse.unquote_plus: plus signs become spaces, then unquote. -/
def unquotePlus (s : String) : String :=
  pyUnquote (String.mk (s.toList.map (fun c => if c = '+' then ' ' else c)))

/-! ## base64.urlsafe_b64decode with binascii non-strict semantics

Characters outside the base64 alphabet are discarded; an equals sign at quad
position two or three can finish the stream early; input ending mid-quad is
an error (modeled as none). -/

/-- Value of a standard-alphabet base64 character. -/
def b64Val (c : Char) : Option Nat :=
  let n := c.toNat
  if 65 ≤ n && n ≤ 90 then some (n - 65)
  else if 97 ≤ n && n ≤ 122 then some (n - 97 + 26)
  else if 48 ≤ n && n ≤ 57 then some (n - 48 + 52)
  else if c = '+' then some 62
  else if c = '/' then some 63
  else none

/-- binascii.a2b_base64 in non-strict mode.  State: quad position, the bits
accumulated for the current quad, consecutive pads seen at quad position two
or more, and the output bytes in reverse order. -/
def b64Go : List Char → Nat → Nat → Nat → List Nat → Option (List Nat)
  | [], quadPos, _, _, acc => if quadPos = 0 then some acc.reverse else none
  | c :: rest, quadPos, leftchar, pads, acc =>
    if c = '=' then
      if 2 ≤ quadPos then
        if 4 ≤ quadPos + (pads + 1) then
          if quadPos = 2 then some ((leftchar / 16 :: acc)).reverse
          else some (((leftchar / 4) % 256 :: leftchar / 1024 :: acc)).reverse
        else b64Go rest quadPos leftchar (pads + 1) acc
      else b64Go rest quadPos leftchar pads acc
    else
      match b64Val c with
      | none => b64Go rest quadPos leftchar pads acc
      | some v =>
        let lc := leftchar * 64 + v
        if quadPos = 3 then
          b64Go rest 0 0 0 (lc % 256 :: (lc / 256) % 256 :: lc / 65536 :: acc)
        else b64Go rest (quadPos + 1) lc 0 acc

/-- base64 decode (non-strict) of a character sequence. -/
def b64DecodeLoose (s : List Char) : Option (List Nat) :=
  b64Go s 0 0 0 []

/-- Padding applied by the program before decoding: equals signs up to a multiple of four. -/
def padEquals (s : String) : String :=
  s ++ String.mk (List.replicate ((4 - s.toList.length % 4) % 4) '=')

/-- The urlsafe alphabet translation done by base64.urlsafe_b64decode. -/
def urlsafeTranslate (c : Char) : Char :=
  if c = '-' then '+' else if c = '_' then '/' else c

/-- _try_b64_http: pad to a multiple of four, urlsafe-base64-decode (none on a
non-ASCII input, which str.encode("ascii") rejects), decode the bytes as
UTF-8 ignoring errors, strip, and accept only a result starting with http. -/
def try_b64_http (s : String) : Option String :=
  if s.toList.any (fun c => 128 ≤ c.toNat) then none
  else
    let t := padEquals s
    match b64DecodeLoose (t.toList.map urlsafeTranslate) with
    | none => none
    | some bytes =>
      let txt := pyStrip (utf8Decode true bytes)
      if pyStartsWith txt "http" then some txt else none

/-! ## decode_gnews_articles: the /articles/ token scan -/

/-- The explicit alphabet set used by decode_gnews_articles (ASCII letters,
digits, hyphen, underscore). -/
def gnewsAlphaChar (c : Char) : Bool :=
  c.isAlphanum || c = '-' || c = '_'

/-- The substring of the token from index i (inclusive) to j (exclusive). -/
def subTok (tl : List Char) (i j : Nat) : List Char :=
  (tl.drop i).take (j - i)

/-- Inner loop of the substring scan: j runs from its start value for fuel
steps; the loop breaks at the first substring containing a character outside
the alphabet, mirroring the break in the source. -/
def scanInner (tl : List Char) (i : Nat) : Nat → Nat → Option String
  | _, 0 => none
  | j, fuel + 1 =>
    let sub := subTok tl i j
    if sub.any (fun c => !gnewsAlphaChar c) then none
    else
      match try_b64_http (String.mk sub) with
      | some got => some got
      | none => scanInner tl i (j + 1) fuel

/-- Outer loop of the substring scan: i runs over the token; positions whose
character is outside the alphabet are skipped; for an alphabet position the
inner loop tries j from i+16 up to min(i+200, n) inclusive. -/
def scanOuter (tl : List Char) (n : Nat) : Nat → Nat → Option String
  | _, 0 => none
  | i, fuel + 1 =>
    let step :=
      if gnewsAlphaChar (tl.getD i ' ') then
        scanInner tl i (i + 16) (min (i + 200) n + 1 - (i + 16))
      else none
    match step with
    | some got => some got
    | none => scanOuter tl n (i + 1) fuel

/-- The token handling of decode_gnews_articles: try the whole token, then
scan substrings. -/
def scanToken (token : String) : Option String :=
  match try_b64_http token with
  | some got => some got
  | none =>
    let tl := token.toList
    scanOuter tl tl.length 0 tl.length

/-- decode_gnews_articles: for news.google /articles/ links, extract the
token from the path (after /articles/, before a question mark) and scan it.
A missing /articles/ marker in the path raises IndexError in the source,
caught and turned into None. -/
def decode_gnews_articles (url : String) : Option String :=
  if !(strContains url "news.google.") || !(strContains url "/articles/") then none
  else
    match pySplit1 (urlparse url).path "/articles/" with
    | (_, some after) => scanToken (pySplit1 after "?").1
    | (_, none) => none

/-! ## extract_direct_from_gnews: the url= query parameter -/

/-- urllib.parse.parse_qs followed by taking the first value of the given
key: pairs are split on the ampersand, pairs without an equals sign or with
an empty raw value are skipped, names and values are unquote_plus-decoded. -/
def parse_qs_first (query key : String) : Option String :=
  (pySplitAll query "&").findSome? (fun pair =>
    match pySplit1 pair "=" with
    | (name, some value) =>
      if value ≠ "" && unquotePlus name = key then some (unquotePlus value) else none
    | (_, none) => none)

/-- extract_direct_from_gnews: read the url= query parameter, unquote it
once more, and accept it when it starts with http. -/
def extract_direct_from_gnews (url : String) : Option String :=
  match parse_qs_first (urlparse url).query "url" with
  | none => none
  | some v =>
    let v2 := pyUnquote v
    if pyStartsWith v2 "http" then some v2 else none

/-! ## The two re.findall patterns used on summaries -/

/-- Case-insensitive literal match of pat (given lowercased) at the head of l. -/
def ciHasPrefixAt (pat l : List Char) : Bool :=
  pat.isPrefixOf ((l.take pat.length).map Char.toLower)

/-- A single or double quote. -/
def isQuote (c : Char) : Bool := c = '"' || c = '\''

/-- Worker for the findall of pattern href=["|quote]([^quotes]+)[quotes] with
re.I: at a position where href= is followed by a quote, the capture is the
maximal run without quotes, which must be nonempty and followed by a quote;
scanning resumes after the closing quote (matches are non-overlapping). -/
def hrefScanGo : Nat → List Char → List String
  | 0, _ => []
  | _, [] => []
  | fuel + 1, c :: rest =>
    let l := c :: rest
    if ciHasPrefixAt ['h', 'r', 'e', 'f', '='] l then
      match l.drop 5 with
      | q :: body =>
        if isQuote q then
          let cap := body.takeWhile (fun ch => !isQuote ch)
          match body.dropWhile (fun ch => !isQuote ch), cap with
          | _ :: tail, _ :: _ => String.mk cap :: hrefScanGo fuel tail
          | _, _ => hrefScanGo fuel rest
        else hrefScanGo fuel rest
      | [] => hrefScanGo fuel rest
    else hrefScanGo fuel rest

/-- re.findall of the href pattern over a string. -/
def hrefFindall (s : String) : List String :=
  hrefScanGo s.toList.length s.toList

/-- Try to match src=[quote]([^quotes]+)[quote] (re.I) at the head of l,
returning the capture and the remainder after the closing quote. -/
def srcAt (l : List Char) : Option (String × List Char) :=
  if ciHasPrefixAt ['s', 'r', 'c', '='] l then
    match l.drop 4 with
    | q :: body =>
      if isQuote q then
        let cap := body.takeWhile (fun ch => !isQuote ch)
        match body.dropWhile (fun ch => !isQuote ch), cap with
        | _ :: tail, _ :: _ => some (String.mk cap, tail)
        | _, _ => none
      else none
    | [] => none
  else none

/-- Backtracking search for the greedy [^>]+ of the img pattern: k counts
down from the maximal run length, taking the largest k at which src= matches. -/
def imgSearchK (region : List Char) : Nat → Option (String × List Char)
  | 0 => none
  | k + 1 =>
    match srcAt (region.drop (k + 1)) with
    | some r => some r
    | none => imgSearchK region k

/-- Worker for the findall of pattern <img[^>]+src=[quote]([^quotes]+)[quote]
with re.I: at an <img, the greedy non-greater-than run is backtracked to the
latest src= whose quoted capture matches; scanning resumes after the match. -/
def imgScanGo : Nat → List Char → List String
  | 0, _ => []
  | _, [] => []
  | fuel + 1, c :: rest =>
    let l := c :: rest
    if ciHasPrefixAt ['<', 'i', 'm', 'g'] l then
      let region := l.drop 4
      let m := (region.takeWhile (fun ch => ch ≠ '>')).length
      match imgSearchK region m with
      | some (cap, tail) => cap :: imgScanGo fuel tail
      | none => imgScanGo fuel rest
    else imgScanGo fuel rest

/-- re.findall of the img-src pattern over a string. -/
def imgFindall (s : String) : List String :=
  imgScanGo s.toList.length s.toList

/-! ## Media extraction from feed entries -/

/-- VIDEO_EXT_RE match attempt at the head of the list: a dot, one of the
video extensions (case-insensitive), then a question mark, hash, or the end. -/
def vextAt (l : List Char) : Bool :=
  match l with
  | '.' :: rest =>
    [['m', 'p', '4'], ['m', 'o', 'v'], ['m', '4', 'v'], ['w', 'e', 'b', 'm']].any (fun e =>
      ciHasPrefixAt e rest &&
        (match rest.drop e.length with
         | [] => true
         | c :: _ => c = '?' || c = '#'))
  | _ => false

/-- VIDEO_EXT_RE.search: the pattern matches somewhere in the string. -/
def videoExtSearch (u : String) : Bool :=
  u.toList.tails.any vextAt

/-- One media_content / media_thumbnail / enclosure record of a feed entry.
Fields model m.get("url"), m.get("href"), m.get("type"). -/
structure MediaRec where
  url : Option String
  href : Option String
  ty : Option String
deriving DecidableEq, Repr

/-- A parsed feed entry with the fields the program reads. Dates are already
parsed (parse_entry_datetime is a library call modeled as given data). -/
structure RawEntry where
  title : String
  link : String
  summary : String
  description : String
  linksHrefs : List String
  mediaContent : List MediaRec
  mediaThumb : List MediaRec
  enclosures : List MediaRec
  sourceTitle : Option String
  author : Option String
  dt : Nat
deriving Repr

/-- _first_ok_url: the first nonempty http(s) URL that is not a data: URL. -/
def first_ok_url (urls : List String) : Option String :=
  urls.find? (fun u =>
    u ≠ "" && (pyStartsWith u "http://" || pyStartsWith u "https://") &&
      !pyStartsWith (pyLower u) "data:")

/-- Accumulate one media_content / media_thumbnail record into (imgs, vids). -/
def mediaStep (acc : List String × List String) (m : MediaRec) : List String × List String :=
  match pyOr m.url m.href with
  | none => acc
  | some u =>
    if u = "" then acc
    else
      let t := pyLower (m.ty.getD "")
      if pyStartsWith t "video" || videoExtSearch u then (acc.1, acc.2 ++ [u])
      else (acc.1 ++ [u], acc.2)

/-- Accumulate one enclosure record into (imgs, vids): href preferred over
url, and images require an image type or an empty type. -/
def enclosureStep (acc : List String × List String) (m : MediaRec) : List String × List String :=
  match pyOr m.href m.url with
  | none => acc
  | some u =>
    if u = "" then acc
    else
      let t := pyLower (m.ty.getD "")
      if pyStartsWith t "video" || videoExtSearch u then (acc.1, acc.2 ++ [u])
      else if pyStartsWith t "image" || t = "" then (acc.1 ++ [u], acc.2)
      else acc

/-- The summary string used by the program: summary, or description when
summary is falsy. -/
def entrySummary (e : RawEntry) : String :=
  if e.summary = "" then e.description else e.summary

/-- extract_media_from_entry: collect candidate image and video URLs from
media fields, enclosures, and img tags in the summary, then return the first
acceptable URL of each kind. -/
def extract_media_from_entry (e : RawEntry) : Option String × Option String :=
  let acc0 := (e.mediaContent ++ e.mediaThumb).foldl mediaStep ([], [])
  let acc1 := e.enclosures.foldl enclosureStep acc0
  let s := entrySummary e
  let acc2 := if s ≠ "" then (acc1.1 ++ imgFindall s, acc1.2) else acc1
  (first_ok_url acc2.1, first_ok_url acc2.2)

/-! ## Placeholder-image and Google-host checks -/

/-- The default placeholder domain list (PLACEHOLDER_IMAGE_DOMAINS). -/
def PLACEHOLDER_DOMAINS : List String :=
  ["encrypted-tbn0.gstatic.com", "tbn0.gstatic.com", "gstatic.com",
   "news.google.com", "news.googleusercontent.com", "lh3.googleusercontent.com",
   "lh4.googleusercontent.com", "lh5.googleusercontent.com",
   "lh6.googleusercontent.com", "gnews.google.com", "googleusercontent.com"]

/-- is_placeholder_image: the URL host contains one of the placeholder domains. -/
def is_placeholder_image (url : String) : Bool :=
  let host := pyLower (urlparse url).netloc
  PLACEHOLDER_DOMAINS.any (fun d => d ≠ "" && strContains host d)

/-- The bad_hosts tuple of _is_google_host. -/
def BAD_GOOGLE_HOSTS : List String :=
  ["news.google.", ".google.com", "google.com", ".googleapis.com",
   "googleapis.com", ".gstatic.com", "gstatic.com", ".googleusercontent.com",
   "googleusercontent.com", "fonts.googleapis.com", "fonts.gstatic.com"]

/-- _is_google_host: the lowercased host ends with or contains one of the
bad host fragments. -/
def is_google_host (host : String) : Bool :=
  let h := pyLower host
  BAD_GOOGLE_HOSTS.any (fun b => pyEndsWith h b || strContains h b)

/-! ## publisher_url_from_entry: the redirect-decoder cascade

The live HTML extraction of strategy five (extract_publisher_from_gnews_html)
is a network operation; it is modeled as an oracle in DecodeEnv, and the
trace records how many times each fallible strategy was invoked. -/

structure DecodeEnv where
  htmlExtract : String → Option String

structure DecodeTrace where
  urlParamTries : Nat
  b64Tries : Nat
  htmlFetches : Nat
deriving DecidableEq, Repr

/-- Candidate links of an entry: the link field when truthy, then the
stripped nonempty hrefs of the links field. -/
def candidatesOf (e : RawEntry) : List String :=
  (if e.link ≠ "" then [e.link] else []) ++
    e.linksHrefs.filterMap (fun h =>
      let h2 := pyStrip h
      if h2 ≠ "" then some h2 else none)

/-- First some of f over a list, together with the number of calls made. -/
def firstSomeCount (f : String → Option String) : List String → Option String × Nat
  | [] => (none, 0)
  | u :: rest =>
    match f u with
    | some r => (some r, 1)
    | none =>
      let (r, k) := firstSomeCount f rest
      (r, k + 1)

/-- publisher_url_from_entry: in order, a candidate without the substring
news.google., the url= query parameter, the /articles/ token decode, the
first off-aggregator hyperlink of the summary, the live HTML extraction on
aggregator candidates, and finally the first candidate (or the empty
string) as fallback. -/
def publisher_url_from_entry (env : DecodeEnv) (e : RawEntry) : String × DecodeTrace :=
  let candidates := candidatesOf e
  match candidates.find? (fun u => !strContains u "news.google.") with
  | some u => (u, ⟨0, 0, 0⟩)
  | none =>
    let r2 := firstSomeCount extract_direct_from_gnews candidates
    match r2.1 with
    | some real => (real, ⟨r2.2, 0, 0⟩)
    | none =>
      let r3 := firstSomeCount decode_gnews_articles candidates
      match r3.1 with
      | some real => (real, ⟨r2.2, r3.2, 0⟩)
      | none =>
        match (hrefFindall (entrySummary e)).find? (fun href =>
            pyStartsWith href "http" && !strContains href "news.google.") with
        | some href => (href, ⟨r2.2, r3.2, 0⟩)
        | none =>
          let googleCands := candidates.filter (fun u => strContains u "news.google.")
          let r5 := firstSomeCount env.htmlExtract googleCands
          match r5.1 with
          | some real => (real, ⟨r2.2, r3.2, r5.2⟩)
          | none => (candidates.headD "", ⟨r2.2, r3.2, r5.2⟩)

/-! ## SHA-1 and make_id -/

/-- UTF-8 encoding of one unicode scalar. -/
def utf8EncodeChar (c : Char) : List Nat :=
  let n := c.toNat
  if n < 128 then [n]
  else if n < 2048 then [192 + n / 64, 128 + n % 64]
  else if n < 65536 then [224 + n / 4096, 128 + (n / 64) % 64, 128 + n % 64]
  else [240 + n / 262144, 128 + (n / 4096) % 64, 128 + (n / 64) % 64, 128 + n % 64]

/-- str.encode("utf-8"). -/
def strUtf8 (s : String) : List Nat :=
  s.toList.flatMap utf8EncodeChar

/-- Rotate a 32-bit word left by n bits. -/
def rotl32 (n x : Nat) : Nat :=
  (x % 2 ^ (32 - n)) * 2 ^ n + x / 2 ^ (32 - n)

/-- Big-endian eight-byte encoding. -/
def beBytes8 (n : Nat) : List Nat :=
  [n / 2 ^ 56 % 256, n / 2 ^ 48 % 256, n / 2 ^ 40 % 256, n / 2 ^ 32 % 256,
   n / 2 ^ 24 % 256, n / 2 ^ 16 % 256, n / 2 ^ 8 % 256, n % 256]

/-- SHA-1 message padding: 0x80, zeros to 56 mod 64, then the bit length. -/
def sha1Pad (msg : List Nat) : List Nat :=
  let L := msg.length
  msg ++ [128] ++ List.replicate ((56 + 64 - (L + 1) % 64) % 64) 0 ++ beBytes8 (L * 8)

/-- Fuel-driven split into 64-byte chunks. -/
def chunks64 : Nat → List Nat → List (List Nat)
  | 0, _ => []
  | _, [] => []
  | fuel + 1, l => l.take 64 :: chunks64 fuel (l.drop 64)

/-- Big-endian word value of a byte list. -/
def beWord (b : List Nat) : Nat :=
  b.foldl (fun a x => a * 256 + x) 0

/-- The sixteen 32-bit words of a 64-byte chunk. -/
def chunkWords (c : List Nat) : List Nat :=
  (List.range 16).map (fun i => beWord ((c.drop (4 * i)).take 4))

/-- Extend sixteen words to eighty for SHA-1. -/
def sha1Extend (w16 : List Nat) : List Nat :=
  (List.range 64).foldl
    (fun w i =>
      w ++ [rotl32 1 ((((w.getD (i + 13) 0) ^^^ (w.getD (i + 8) 0)) ^^^
        (w.getD (i + 2) 0)) ^^^ (w.getD i 0))])
    w16

/-- Bitwise complement within 32 bits. -/
def not32 (x : Nat) : Nat := 4294967295 - x

/-- The SHA-1 round function and constant for round t. -/
def sha1FK (t b c d : Nat) : Nat × Nat :=
  if t < 20 then ((b &&& c) ||| (not32 b &&& d), 1518500249)
  else if t < 40 then ((b ^^^ c) ^^^ d, 1859775393)
  else if t < 60 then ((b &&& c) ||| (b &&& d) ||| (c &&& d), 2400959708)
  else ((b ^^^ c) ^^^ d, 3395469782)

/-- Process one chunk, updating the five-word state. -/
def sha1Chunk (h : Nat × Nat × Nat × Nat × Nat) (c : List Nat) : Nat × Nat × Nat × Nat × Nat :=
  let w := sha1Extend (chunkWords c)
  let (h0, h1, h2, h3, h4) := h
  let (a, b, c2, d, e) :=
    (List.range 80).foldl
      (fun (st : Nat × Nat × Nat × Nat × Nat) t =>
        let (a, b, c2, d, e) := st
        let (f, k) := sha1FK t b c2 d
        let temp := (rotl32 5 a + f + e + k + w.getD t 0) % 4294967296
        (temp, a, rotl32 30 b, c2, d))
      (h0, h1, h2, h3, h4)
  ((h0 + a) % 4294967296, (h1 + b) % 4294967296, (h2 + c2) % 4294967296,
   (h3 + d) % 4294967296, (h4 + e) % 4294967296)

/-- One lowercase hexadecimal digit. -/
def hexDigitChar (n : Nat) : Char :=
  if n < 10 then Char.ofNat (48 + n) else Char.ofNat (87 + n)

/-- Eight-digit lowercase hexadecimal rendering of a 32-bit word. -/
def toHex8 (n : Nat) : String :=
  String.mk ((List.range 8).map (fun i => hexDigitChar (n / 16 ^ (7 - i) % 16)))

/-- hashlib.sha1(...).hexdigest() over a byte list. -/
def sha1Hex (msg : List Nat) : String :=
  let padded := sha1Pad msg
  let (h0, h1, h2, h3, h4) :=
    (chunks64 padded.length padded).foldl sha1Chunk
      (1732584193, 4023233417, 2562383102, 271733878, 3285377520)
  toHex8 h0 ++ toHex8 h1 ++ toHex8 h2 ++ toHex8 h3 ++ toHex8 h4

/-- make_id: the SHA-1 hex digest of title, a vertical bar, and link, UTF-8 encoded. -/
def make_id (t l : String) : String :=
  sha1Hex (strUtf8 (t ++ "|" ++ l))

/-! ## Sent-ledger (the sent_articles table, keyed by id) -/

/-- already_sent: the fingerprint is present in the ledger. -/
def already_sent (sent : List String) (aid : String) : Bool :=
  sent.contains aid

/-- mark_sent uses INSERT OR IGNORE: a duplicate mark is a no-op. -/
def markSent (sent : List String) (aid : String) : List String :=
  if sent.contains aid then sent else sent ++ [aid]

/-! ## Media cache store (download_to_data and helpers) -/

/-- A file in a cache directory listing: name and size in bytes. -/
structure FileEntry where
  name : String
  size : Nat
deriving DecidableEq, Repr

/-- An HTTP response: status, Content-Type header, and total body length.
The source streams the body in chunks and checks the size limit after each
chunk; since the running total is monotone, aborting is equivalent to
comparing the total length. -/
structure HttpResponse where
  status : Nat
  contentType : String
  bodyLen : Nat
deriving DecidableEq, Repr

/-- Network oracle for the cache store: none models a requests exception. -/
structure DlEnv where
  httpGet : String → Option HttpResponse

def IMAGES_DIR : String := "data/images"
def VIDEOS_DIR : String := "data/videos"

/-- os.path.abspath, modeled as the identity on the already-qualified
relative paths used here (path-name resolution is environmental). -/
def absPath (p : String) : String := p

/-- _pick_ext_by_ct: choose the extension from the declared content type. -/
def pick_ext_by_ct (ct0 : String) (isVideo : Bool) : String :=
  let ct := pyLower ct0
  if isVideo then
    if strContains ct "mp4" then ".mp4"
    else if strContains ct "webm" then ".webm"
    else if strContains ct "quicktime" || strContains ct "mov" then ".mov"
    else ".mp4"
  else
    if strContains ct "jpeg" || strContains ct "jpg" then ".jpg"
    else if strContains ct "png" then ".png"
    else if strContains ct "webp" then ".webp"
    else if strContains ct "gif" then ".gif"
    else ".jpg"

/-- _pick_ext_by_url: a recognized extension at the end of the URL path. -/
def pick_ext_by_url (url : String) (isVideo : Bool) : Option String :=
  let path := pyLower (urlparse url).path
  (if isVideo then [".mp4", ".webm", ".mov", ".m4v"]
   else [".jpg", ".jpeg", ".png", ".webp", ".gif"]).find? (fun e => pyEndsWith path e)

/-- _find_existing_path: the first listed file whose name starts with key
followed by a dot or an underscore (an absent directory lists as empty). -/
def find_existing_path (listing : List FileEntry) (key : String) : Option FileEntry :=
  listing.find? (fun fe =>
    pyStartsWith fe.name (key ++ ".") || pyStartsWith fe.name (key ++ "_"))

/-- Replace or append a file in a directory listing (os.replace overwrites). -/
def upsertFile (listing : List FileEntry) (nm : String) (size : Nat) : List FileEntry :=
  if listing.any (fun fe => fe.name = nm) then
    listing.map (fun fe => if fe.name = nm then ⟨nm, size⟩ else fe)
  else listing ++ [⟨nm, size⟩]

/-- Result of one download_to_data call: the returned path, the number of
network requests issued, and the directory listing afterwards. -/
structure DlResult where
  path : Option String
  netCalls : Nat
  listing : List FileEntry
deriving DecidableEq, Repr

/-- download_to_data: reuse a nonempty cached file for the key, else issue
one GET; abort on an exception, an error status, an HTML content type, or a
configured size limit exceeded (a limit of zero is falsy in the source);
otherwise the final name takes its extension from the content type. -/
def download_to_data (env : DlEnv) (listing : List FileEntry) (url key : String)
    (isVideo : Bool) (sizeLimit : Option Nat) : DlResult :=
  let folder := if isVideo then VIDEOS_DIR else IMAGES_DIR
  let hit :=
    match find_existing_path listing key with
    | some fe => if fe.size > 0 then some fe else none
    | none => none
  match hit with
  | some fe => ⟨some (absPath (folder ++ "/" ++ fe.name)), 0, listing⟩
  | none =>
    -- the URL-derived extension only names the provisional target, which is
    -- recomputed from the response before the rename
    let _ext1 := (pick_ext_by_url url isVideo).getD (if isVideo then ".mp4" else ".jpg")
    match env.httpGet url with
    | none => ⟨none, 1, listing⟩
    | some r =>
      if 400 ≤ r.status then ⟨none, 1, listing⟩
      else
        let ct := pyLower r.contentType
        if strContains ct "text/html" then ⟨none, 1, listing⟩
        else
          let ext2 := pick_ext_by_ct ct isVideo
          let overLimit :=
            match sizeLimit with
            | some lim => lim ≠ 0 && r.bodyLen > lim
            | none => false
          if overLimit then ⟨none, 1, listing⟩
          else ⟨some (absPath (folder ++ "/" ++ key ++ ext2)), 1,
                upsertFile listing (key ++ ext2) r.bodyLen⟩

/-! ## Ingestion: fetch_category_news

The feed fetch and date parsing are environmental; feeds supplies the
already-parsed entries of each query of the category. -/

def MAX_ITEMS_PER_PUSH : Nat := 6

/-- The item dictionary built per entry in fetch_category_news. -/
structure ItemRec where
  title : String
  link : String
  publisherLink : String
  dt : Nat
  source : String
  category : String
  img : Option String
  vid : Option String
deriving Repr

/-- The per-entry body of the fetch loop: entries lacking a title or link or
older than the cutoff are dropped; the rest get media extraction and link
resolution (this is where publisher_url_from_entry runs, before any ledger
consultation).  The accumulator carries the item list and the number of
publisher_url_from_entry invocations. -/
def fetchStep (env : DecodeEnv) (category : String) (cutoff : Nat)
    (acc : List ItemRec × Nat) (e : RawEntry) : List ItemRec × Nat :=
  if e.title = "" || e.link = "" then acc
  else if e.dt < cutoff then acc
  else
    let source :=
      match e.sourceTitle with
      | some stt => stt
      | none => e.author.getD ""
    let (img, vid) := extract_media_from_entry e
    let (pubLink, _tr) := publisher_url_from_entry env e
    (acc.1 ++ [{ title := pyStrip e.title, link := pyStrip e.link,
                 publisherLink := pubLink, dt := e.dt, source := pyStrip source,
                 category := category, img := img, vid := vid }],
     acc.2 + 1)

/-- Deduplication by the (title, link) key, keeping the first occurrence
(dict insertion order). -/
def dedupGo (seen : List (String × String)) : List ItemRec → List ItemRec
  | [] => []
  | it :: rest =>
    if seen.contains (it.title, it.link) then dedupGo seen rest
    else it :: dedupGo ((it.title, it.link) :: seen) rest

/-- fetch_category_news: per query, per entry, build items; then dedup,
sort newest-first (stable, like Python sorted with reverse=True), and cap at
MAX_ITEMS_PER_PUSH.  Also returns how many entries underwent link
resolution. -/
def fetch_category_news (env : DecodeEnv) (category : String)
    (feeds : List (List RawEntry)) (cutoff : Nat) : List ItemRec × Nat :=
  let (items, rCalls) :=
    feeds.foldl (fun acc feed => feed.foldl (fetchStep env category cutoff) acc) ([], 0)
  ((dedupGo [] items).mergeSort (fun a b => b.dt ≤ a.dt) |>.take MAX_ITEMS_PER_PUSH, rCalls)

/-! ## send_album_with_ad: per-item media location, caching, and batching -/

/-- The configuration flags read by the album stage. -/
structure PassConfig where
  enableOgScrape : Bool
  mediaOnly : Bool

/-- Network and filesystem oracles for the album stage.  fetchOg is indexed
by the number of scrapes made so far in the pass, so distinct scrape calls
may observe different results; download stands for a whole download_to_data
call (URL, key, video flag). -/
structure AlbumEnv where
  htmlExtract : String → Option String
  resolveUrl : String → String
  fetchOg : Nat → Option String
  download : String → String → Bool → Option String

/-- An item the loop selected for delivery, with its local media path. -/
structure ChosenRec where
  item : ItemRec
  localPath : String
  isVideo : Bool
deriving Repr

/-- Counters threaded through a pass: the shared OG budget, total OG scrape
attempts, the attempts made at the budget-guarded site and at the
post-download-failure fallback site, download_to_data calls, and the two
firm-up network calls of the album stage. -/
structure AlbumState where
  budget : Nat
  scrapes : Nat
  guardedScrapes : Nat
  fallbackScrapes : Nat
  downloadCalls : Nat
  firmupExtracts : Nat
  firmupResolves : Nat
deriving DecidableEq, Repr

/-- Step one of the item loop: firm up an aggregator link by live extraction,
falling back to redirect following (both network calls, counted). -/
def firmupStage (env : AlbumEnv) (finalLink0 : String) (st : AlbumState) :
    String × AlbumState :=
  if strContains finalLink0 "news.google." then
    match env.htmlExtract finalLink0 with
    | some cand => (cand, { st with firmupExtracts := st.firmupExtracts + 1 })
    | none =>
      (env.resolveUrl finalLink0,
       { st with
         firmupExtracts := st.firmupExtracts + 1
         firmupResolves := st.firmupResolves + 1 })
  else (finalLink0, st)

/-- The budget-guarded OG scrape of step two: when the item has no video,
scraping is enabled, the link is nonempty and the shared budget is positive,
attempt one scrape and decrement the budget whether or not an image came
back.  Returns the possibly replaced image, the used_og flag, and the state. -/
def ogGuardStage (cfg : PassConfig) (env : AlbumEnv) (vid : Option String)
    (finalLink : String) (img0 : Option String) (st1 : AlbumState) :
    Option String × Bool × AlbumState :=
  if !pyTruthy vid && cfg.enableOgScrape && finalLink ≠ "" && st1.budget > 0 then
    let og := env.fetchOg st1.scrapes
    let stA :=
      { st1 with
        scrapes := st1.scrapes + 1
        guardedScrapes := st1.guardedScrapes + 1
        budget := st1.budget - 1 }
    match og with
    | some o => if o ≠ "" then (some o, true, stA) else (img0, false, stA)
    | none => (img0, false, stA)
  else (img0, false, st1)

/-- Step three: download the video when present, else the (possibly
OG-replaced) image under the matching cache key. -/
def downloadStage (env : AlbumEnv) (aid : String) (vid img1 : Option String)
    (usedOg : Bool) (st2 : AlbumState) : Option String × AlbumState :=
  let (local1, st3) :=
    if pyTruthy vid then
      (env.download (vid.getD "") (aid ++ "-vid") true,
       { st2 with downloadCalls := st2.downloadCalls + 1 })
    else (none, st2)
  if !pyTruthy local1 && pyTruthy img1 then
    let key := if usedOg then aid ++ "-og" else aid ++ "-img"
    (env.download (img1.getD "") key false,
     { st3 with downloadCalls := st3.downloadCalls + 1 })
  else (local1, st3)

/-- The fallback OG scrape of step three: when no local file was obtained,
scraping is enabled and the link is nonempty, attempt one more scrape and
download its result.  This site neither consults nor decrements the budget. -/
def fallbackOgStage (cfg : PassConfig) (env : AlbumEnv) (aid finalLink : String)
    (local2 : Option String) (st4 : AlbumState) : Option String × AlbumState :=
  if !pyTruthy local2 && cfg.enableOgScrape && finalLink ≠ "" then
    let og := env.fetchOg st4.scrapes
    let stB :=
      { st4 with
        scrapes := st4.scrapes + 1
        fallbackScrapes := st4.fallbackScrapes + 1 }
    match og with
    | some o =>
      if o ≠ "" then
        (env.download o (aid ++ "-og") false,
         { stB with downloadCalls := stB.downloadCalls + 1 })
      else (local2, stB)
    | none => (local2, stB)
  else (local2, st4)

/-- The body of the item loop of send_album_with_ad: skip a ledger-marked
item; firm up an aggregator link; discard a placeholder image; run the
budget-guarded OG scrape; skip media-less items in media-only mode; download
the video, else the image; on download failure run the unguarded fallback OG
scrape; drop the item when no local file was obtained. -/
def processItem (cfg : PassConfig) (env : AlbumEnv) (sent : List String)
    (it : ItemRec) (st : AlbumState) : Option ChosenRec × AlbumState :=
  let aid := make_id it.title it.link
  if already_sent sent aid then (none, st)
  else
    let finalLink0 := if it.publisherLink ≠ "" then it.publisherLink
      else if it.link ≠ "" then it.link else ""
    let (finalLink, st1) := firmupStage env finalLink0 st
    let img0 := if pyTruthy it.img && is_placeholder_image (it.img.getD "") then none else it.img
    let (img1, usedOg, st2) := ogGuardStage cfg env it.vid finalLink img0 st1
    if cfg.mediaOnly && !(pyTruthy img1 || pyTruthy it.vid) then (none, st2)
    else
      let (local2, st4) := downloadStage env aid it.vid img1 usedOg st2
      let (local3, st5) := fallbackOgStage cfg env aid finalLink local2 st4
      match local3 with
      | some p =>
        if p ≠ "" then
          (some ⟨it, p, pyStartsWith p (absPath VIDEOS_DIR)⟩, st5)
        else (none, st5)
      | none => (none, st5)

/-- The item loop: build the chosen list, threading the pass state.  The
ledger is fixed during this loop; marking happens only in the batch flushes
afterwards. -/
def processItems (cfg : PassConfig) (env : AlbumEnv) (sent : List String) :
    List ItemRec → AlbumState → List ChosenRec × AlbumState
  | [], st => ([], st)
  | it :: rest, st =>
    let (c, st1) := processItem cfg env sent it st
    let (cs, st2) := processItems cfg env sent rest st1
    (match c with
     | some cr => cr :: cs
     | none => cs, st2)

/-! ## Batch assembly (flush_batch and the chunking loop) -/

def ALBUM_MAX : Nat := 10

/-- Delivery oracle: outcome of the single-media send and of the grouped
media send. -/
structure SendEnv where
  sendSingle : ChosenRec → Bool
  sendGroup : List ChosenRec → Bool

/-- flush_batch: an empty batch is a no-op; a singleton goes through the
single-media path and is marked on success; a batch of two or more goes
through sendMediaGroup and on success every member is marked, while on
failure none is.  The Bool is the sent_any flag. -/
def flush_batch (env : SendEnv) (batch : List ChosenRec)
    (st : List String × Bool) : List String × Bool :=
  match batch with
  | [] => st
  | [itx] =>
    if env.sendSingle itx then
      (markSent st.1 (make_id itx.item.title itx.item.link), true)
    else st
  | _ =>
    if env.sendGroup batch then
      (batch.foldl (fun l itx => markSent l (make_id itx.item.title itx.item.link)) st.1, true)
    else st

/-- The chunking loop of send_album_with_ad: accumulate items, flush every
time the buffer reaches ALBUM_MAX, and flush the remainder at the end. -/
def batchLoop (env : SendEnv) : List ChosenRec → List ChosenRec →
    (List String × Bool) → List String × Bool
  | [], cur, st => flush_batch env cur st
  | it :: rest, cur, st =>
    let cur2 := cur ++ [it]
    if cur2.length = ALBUM_MAX then batchLoop env rest [] (flush_batch env cur2 st)
    else batchLoop env rest cur2 st

/-- send_album_with_ad, restricted to its ledger-relevant effect: build the
chosen list, and when it is nonempty deliver it in batches, returning the
updated ledger (the header, summary, and advertisement messages carry no
media and touch neither the ledger nor the budget). -/
def send_album_with_ad (cfg : PassConfig) (env : AlbumEnv) (senv : SendEnv)
    (ledger : List String) (items : List ItemRec) (st : AlbumState) :
    List String × AlbumState :=
  let (chosen, st2) := processItems cfg env ledger items st
  match chosen with
  | [] => (ledger, st2)
  | _ => ((batchLoop senv chosen [] (ledger, false)).1, st2)

/-! ## Claim-level descriptions of the substring scan (for comparison with
the code's scan) -/

/-- Substring index pairs (i, j), i the start and j the end (exclusive), in
left-to-right order (start index first, then end index), restricted to
lengths of at least 16 and at most 200 characters. -/
def candidatePairs (n : Nat) : List (Nat × Nat) :=
  (List.range n).flatMap (fun i =>
    (List.range' (i + 16) (min (i + 200) n + 1 - (i + 16))).map (fun j => (i, j)))

/-- Modelled from the claim's words: scan substrings of the token of length
at least 16 and at most 200 characters and return the first substring,
scanning left to right, whose (padded, urlsafe) base64 decoding yields an
http-prefixed string. -/
def claimLooseScan (token : String) : Option String :=
  let tl := token.toList
  (candidatePairs tl.length).findSome? (fun p => try_b64_http (String.mk (subTok tl p.1 p.2)))

/-- The amended description: the same left-to-right substring scan, but
restricted to substrings consisting solely of URL-safe base64 alphabet
characters (ASCII letters, digits, hyphen, underscore). -/
def specAlphaScan (token : String) : Option String :=
  let tl := token.toList
  (candidatePairs tl.length).findSome? (fun p =>
    if (subTok tl p.1 p.2).all gnewsAlphaChar then
      try_b64_http (String.mk (subTok tl p.1 p.2))
    else none)

/-! # Theorems -/

/-- Claim C10: the fingerprint function hashes the concatenation
title, vertical bar, link; it is a function (hence deterministic) and is not
injective: the distinct pairs ("a|b", "c") and ("a", "b|c") concatenate to
the same string and therefore share a fingerprint, so two distinct articles
can alias to one sent-ledger entry. -/
theorem c10_fingerprint_not_injective :
    make_id "a|b" "c" = make_id "a" "b|c" ∧
    (("a|b", "c") : String × String) ≠ ("a", "b|c") := by
  refine ⟨?_, by decide⟩
  have h : ("a|b" ++ "|" ++ "c" : String) = "a" ++ "|" ++ "b|c" := by decide
  exact congrArg (fun s => sha1Hex (strUtf8 s)) h

/-- Claim C9: download_to_data treats a key-matching cached file as a hit
only when its size is strictly positive; a zero-byte match is ignored and a
network request is issued. -/
theorem c9_zero_byte_cache_miss (env : DlEnv) (listing : List FileEntry)
    (url key : String) (isVideo : Bool) (lim : Option Nat) :
    ((download_to_data env listing url key isVideo lim).netCalls = 0 →
      ∃ fe, find_existing_path listing key = some fe ∧ 0 < fe.size) ∧
    (∀ fe, find_existing_path listing key = some fe → fe.size = 0 →
      (download_to_data env listing url key isVideo lim).netCalls = 1) := by
  unfold download_to_data
  cases hfe : find_existing_path listing key with
  | none =>
    simp only [hfe]
    refine ⟨fun h => absurd h ?_, fun fe hfe2 _ => by cases hfe2⟩
    cases hg : env.httpGet url <;> simp [hg] <;> split_ifs <;> simp
  | some fe =>
    by_cases hs : fe.size > 0
    · simp only [hfe, hs, if_pos]
      exact ⟨fun _ => ⟨fe, rfl, hs⟩, fun fe2 hfe2 h0 => by
        cases hfe2; omega⟩
    · simp only [hfe, hs, if_neg]
      refine ⟨fun h => absurd h ?_, fun fe2 hfe2 _ => ?_⟩
      · cases hg : env.httpGet url <;> simp [hg] <;> split_ifs <;> simp
      · cases hfe2
        cases hg : env.httpGet url <;> simp [hg] <;> split_ifs <;> simp

/-- Witness for C9 at a concrete input: a zero-byte cached file k.jpg is
ignored and the fetch issues one network request. -/
theorem c9_zero_byte_cache_miss_witness :
    (download_to_data ⟨fun _ => some ⟨200, "image/png", 5⟩⟩ [⟨"k.jpg", 0⟩]
      "u" "k" false none).netCalls = 1 :=
  (c9_zero_byte_cache_miss ⟨fun _ => some ⟨200, "image/png", 5⟩⟩ [⟨"k.jpg", 0⟩]
    "u" "k" false none).2 ⟨"k.jpg", 0⟩ (by decide) (by decide)

/-- Every extension chosen by _pick_ext_by_ct begins with a dot, so the final
file name extends key followed by a dot. -/
theorem startsWith_key_dot_pick_ext (key ct : String) (iv : Bool) :
    pyStartsWith (key ++ pick_ext_by_ct ct iv) (key ++ ".") = true := by
  have hdot : ['.'] <+: (pick_ext_by_ct ct iv).toList := by
    simp only [pick_ext_by_ct]
    split_ifs <;> decide
  have : (key ++ ".").toList <+: (key ++ pick_ext_by_ct ct iv).toList := by
    have h1 : (key ++ ".").toList = key.toList ++ ['.'] := by
      simp [String.toList, String.data_append]
    have h2 : (key ++ pick_ext_by_ct ct iv).toList =
        key.toList ++ (pick_ext_by_ct ct iv).toList := by
      simp [String.toList, String.data_append]
    rw [h1, h2]
    exact (List.prefix_append_right_inj key.toList).mpr hdot
  simpa [pyStartsWith] using List.isPrefixOf_iff_prefix.mpr this

/-- After a fresh download wrote the file for a key into a listing that had
no match for that key, the next lookup finds exactly that file. -/
theorem find_existing_after_upsert (listing : List FileEntry) (key nm : String)
    (len : Nat) (hmiss : find_existing_path listing key = none)
    (hname : pyStartsWith nm (key ++ ".") = true) :
    find_existing_path (upsertFile listing nm len) key = some ⟨nm, len⟩ := by
  have hnone := List.find?_eq_none.mp hmiss
  have hany : listing.any (fun fe => fe.name = nm) = false := by
    by_contra hc
    rw [Bool.not_eq_false, List.any_eq_true] at hc
    obtain ⟨fe, hmem, hfe⟩ := hc
    have := hnone fe hmem
    simp only [Bool.or_eq_true, not_or] at this
    exact this.1 (by
      have : fe.name = nm := by simpa using hfe
      rw [this]; exact hname)
  unfold upsertFile
  rw [hany]
  simp only [Bool.false_eq_true, if_false]
  unfold find_existing_path at hmiss ⊢
  rw [List.find?_append, hmiss]
  simp [hname]

/-- Claim C7 counterexample: a zero-byte file whose name begins with key
followed by a dot is present, yet the fetch issues a network request, so the
claimed unconditional cache-hit short-circuit does not hold. -/
theorem c7_zero_byte_hit_counterexample :
    pyStartsWith "k.jpg" ("k" ++ ".") = true ∧
    (download_to_data ⟨fun _ => some ⟨200, "image/png", 5⟩⟩ [⟨"k.jpg", 0⟩]
        "u" "k" false none).netCalls = 1 := by
  decide

/-- Claim C7 as amended: a key-matching file short-circuits the fetch (no
network call, its path returned) only when it is nonempty; consequently,
when the first fetch of a key (into a listing with no match for it)
succeeds with a nonempty body, a second fetch with the same key issues no
network request and returns the same path. -/
theorem c7_cache_hit_short_circuit :
    (∀ (env : DlEnv) (listing : List FileEntry) (url key : String) (isVideo : Bool)
        (lim : Option Nat) (fe : FileEntry),
      find_existing_path listing key = some fe → 0 < fe.size →
      download_to_data env listing url key isVideo lim =
        ⟨some (absPath ((if isVideo then VIDEOS_DIR else IMAGES_DIR) ++ "/" ++ fe.name)),
         0, listing⟩) ∧
    (∀ (env : DlEnv) (listing : List FileEntry) (url key : String) (isVideo : Bool)
        (lim : Option Nat) (r : HttpResponse),
      find_existing_path listing key = none →
      env.httpGet url = some r →
      r.status < 400 →
      strContains (pyLower r.contentType) "text/html" = false →
      (match lim with | some l2 => l2 ≠ 0 && r.bodyLen > l2 | none => false) = false →
      0 < r.bodyLen →
      (download_to_data env listing url key isVideo lim).netCalls = 1 ∧
      (download_to_data env (download_to_data env listing url key isVideo lim).listing
          url key isVideo lim).netCalls = 0 ∧
      (download_to_data env (download_to_data env listing url key isVideo lim).listing
          url key isVideo lim).path =
        (download_to_data env listing url key isVideo lim).path) := by
  constructor
  · intro env listing url key isVideo lim fe hfe hs
    unfold download_to_data
    rw [hfe]
    simp [hs]
  · intro env listing url key isVideo lim r hmiss hget hst hhtml hlim hlen
    have hd1 : download_to_data env listing url key isVideo lim =
        ⟨some (absPath ((if isVideo then VIDEOS_DIR else IMAGES_DIR) ++ "/" ++ key ++
            pick_ext_by_ct (pyLower r.contentType) isVideo)), 1,
         upsertFile listing (key ++ pick_ext_by_ct (pyLower r.contentType) isVideo)
           r.bodyLen⟩ := by
      unfold download_to_data
      rw [hmiss, hget]
      dsimp only
      rw [if_neg (by omega : ¬ 400 ≤ r.status),
        if_neg (show ¬ strContains (pyLower r.contentType) "text/html" = true by
          rw [hhtml]; exact Bool.false_ne_true),
        if_neg (by rw [hlim]; exact Bool.false_ne_true)]
    have hfind := find_existing_after_upsert listing key
      (key ++ pick_ext_by_ct (pyLower r.contentType) isVideo) r.bodyLen hmiss
      (startsWith_key_dot_pick_ext key (pyLower r.contentType) isVideo)
    have hd2 : download_to_data env
        (upsertFile listing (key ++ pick_ext_by_ct (pyLower r.contentType) isVideo) r.bodyLen)
        url key isVideo lim =
        ⟨some (absPath ((if isVideo then VIDEOS_DIR else IMAGES_DIR) ++ "/" ++
            (key ++ pick_ext_by_ct (pyLower r.contentType) isVideo))), 0,
         upsertFile listing (key ++ pick_ext_by_ct (pyLower r.contentType) isVideo)
           r.bodyLen⟩ := by
      unfold download_to_data
      rw [hfind]
      dsimp only
      rw [if_pos (by simpa using hlen)]
    have hassoc : ((if isVideo then VIDEOS_DIR else IMAGES_DIR) ++ "/" ++ key ++
          pick_ext_by_ct (pyLower r.contentType) isVideo) =
        ((if isVideo then VIDEOS_DIR else IMAGES_DIR) ++ "/" ++
          (key ++ pick_ext_by_ct (pyLower r.contentType) isVideo)) := by
      apply String.ext
      simp [String.data_append]
    rw [hd1]
    refine ⟨rfl, ?_, ?_⟩
    · dsimp only
      rw [hd2]
    · dsimp only
      rw [hd2]
      dsimp only [absPath]
      rw [hassoc]

/-- Witness for C7 as amended, at concrete inputs: a nonempty cached file is
reused with no network call, and a successful fresh fetch followed by a
refetch yields one then zero network calls with equal paths. -/
theorem c7_cache_hit_short_circuit_witness :
    download_to_data ⟨fun _ => some ⟨200, "image/png", 5⟩⟩ [⟨"k.jpg", 3⟩]
        "u" "k" false none =
      ⟨some (absPath ((if false then VIDEOS_DIR else IMAGES_DIR) ++ "/" ++ "k.jpg")),
       0, [⟨"k.jpg", 3⟩]⟩ ∧
    (download_to_data ⟨fun _ => some ⟨200, "image/png", 5⟩⟩ [] "u" "k" false none).netCalls = 1 ∧
    (download_to_data ⟨fun _ => some ⟨200, "image/png", 5⟩⟩
        (download_to_data ⟨fun _ => some ⟨200, "image/png", 5⟩⟩ [] "u" "k" false none).listing
        "u" "k" false none).netCalls = 0 := by
  refine ⟨c7_cache_hit_short_circuit.1 _ [⟨"k.jpg", 3⟩] "u" "k" false none ⟨"k.jpg", 3⟩
      (by decide) (by decide), ?_, ?_⟩
  · exact (c7_cache_hit_short_circuit.2 _ [] "u" "k" false none ⟨200, "image/png", 5⟩
      (by decide) rfl (by decide) (by decide) (by decide) (by decide)).1
  · exact (c7_cache_hit_short_circuit.2 _ [] "u" "k" false none ⟨200, "image/png", 5⟩
      (by decide) rfl (by decide) (by decide) (by decide) (by decide)).2.1

/-- Claim C4 counterexample: a URL whose path ends in .jpg served with
content type video/mp4, downloaded through the image path, is cached as
.jpg, not with a video extension. -/
theorem c4_image_mode_counterexample :
    pyEndsWith (pyLower (urlparse "https://a.example/x.jpg").path) ".jpg" = true ∧
    (download_to_data ⟨fun _ => some ⟨200, "video/mp4", 5⟩⟩ []
        "https://a.example/x.jpg" "k" false none).path = some "data/images/k.jpg" := by
  decide

/-- Claim C4 as amended: the cached extension is computed from the declared
content type and the is_video flag alone — two URLs with identical responses
produce identical results, so the URL's apparent extension is never used —
and a fresh successful download is always named with _pick_ext_by_ct; in
video mode a .jpg URL served as video/mp4 does get a video extension, while
in image mode video/mp4 falls back to .jpg. -/
theorem c4_extension_from_content_type :
    (∀ (env : DlEnv) (listing : List FileEntry) (key : String) (isVideo : Bool)
        (lim : Option Nat) (u1 u2 : String),
      env.httpGet u1 = env.httpGet u2 →
      download_to_data env listing u1 key isVideo lim =
        download_to_data env listing u2 key isVideo lim) ∧
    (∀ (env : DlEnv) (listing : List FileEntry) (url key : String) (isVideo : Bool)
        (lim : Option Nat) (r : HttpResponse) (p : String),
      env.httpGet url = some r →
      (download_to_data env listing url key isVideo lim).netCalls = 1 →
      (download_to_data env listing url key isVideo lim).path = some p →
      p = absPath ((if isVideo then VIDEOS_DIR else IMAGES_DIR) ++ "/" ++ key ++
            pick_ext_by_ct (pyLower r.contentType) isVideo)) ∧
    (download_to_data ⟨fun _ => some ⟨200, "video/mp4", 5⟩⟩ []
        "https://a.example/x.jpg" "k" true none).path = some "data/videos/k.mp4" := by
  refine ⟨?_, ?_, by decide⟩
  · intro env listing key isVideo lim u1 u2 h
    simp only [download_to_data]
    rw [h]
  · intro env listing url key isVideo lim r p hget hnet hpath
    unfold download_to_data at hnet hpath
    cases hfe : find_existing_path listing key with
    | some fe =>
      rw [hfe] at hnet hpath
      dsimp only at hnet hpath
      by_cases hs : fe.size > 0
      · rw [if_pos hs] at hnet
        dsimp only at hnet
        omega
      · rw [if_neg hs] at hpath
        rw [hget] at hpath
        dsimp only at hpath
        set folder := (if isVideo = true then VIDEOS_DIR else IMAGES_DIR) with hFold
        split_ifs at hpath <;> cases hpath <;> rfl
    | none =>
      rw [hfe, hget] at hpath
      dsimp only at hpath
      set folder := (if isVideo = true then VIDEOS_DIR else IMAGES_DIR) with hFold
      split_ifs at hpath <;> cases hpath <;> rfl

/-- Witness for C4 as amended, at concrete inputs: two different URLs with
the same response give the same result, and the fresh-download path carries
the content-type extension. -/
theorem c4_extension_from_content_type_witness :
    download_to_data ⟨fun _ => some ⟨200, "image/webp", 7⟩⟩ [] "https://a/x.jpg" "k" false none =
      download_to_data ⟨fun _ => some ⟨200, "image/webp", 7⟩⟩ [] "https://b/y.png" "k" false none ∧
    ("data/images/k.webp" : String) = absPath ((if false then VIDEOS_DIR else IMAGES_DIR) ++
        "/" ++ "k" ++ pick_ext_by_ct (pyLower "image/webp") false) := by
  constructor
  · exact c4_extension_from_content_type.1 _ [] "k" false none "https://a/x.jpg" "https://b/y.png" rfl
  · exact c4_extension_from_content_type.2.1 ⟨fun _ => some ⟨200, "image/webp", 7⟩⟩ []
      "https://a/x.jpg" "k" false none ⟨200, "image/webp", 7⟩ "data/images/k.webp" rfl
      (by decide) (by decide)

/-- Marking a fingerprint makes the ledger contain it. -/
theorem markSent_contains_self (l : List String) (aid : String) :
    (markSent l aid).contains aid = true := by
  unfold markSent
  split_ifs with h
  · exact h
  · simp

/-- Marking preserves every fingerprint already in the ledger. -/
theorem markSent_mono (l : List String) (aid b : String) (h : l.contains b = true) :
    (markSent l aid).contains b = true := by
  unfold markSent
  split_ifs with hc
  · exact h
  · simp_all

/-- Folding markSent over a batch preserves ledger membership. -/
theorem foldl_markSent_mono (batch : List ChosenRec) (l : List String) (b : String)
    (h : l.contains b = true) :
    (batch.foldl (fun l2 itx => markSent l2 (make_id itx.item.title itx.item.link)) l).contains b
      = true := by
  induction batch generalizing l with
  | nil => exact h
  | cons x rest ih => exact ih _ (markSent_mono _ _ _ h)

/-- Folding markSent over a batch marks every member of the batch. -/
theorem foldl_markSent_contains : ∀ (batch : List ChosenRec) (l : List String) (c : ChosenRec),
    c ∈ batch →
    (batch.foldl (fun l2 itx => markSent l2 (make_id itx.item.title itx.item.link)) l).contains
      (make_id c.item.title c.item.link) = true := by
  intro batch
  induction batch with
  | nil => intro l c hc; cases hc
  | cons x rest ih =>
    intro l c hc
    rcases List.mem_cons.mp hc with h | h
    · subst h
      exact foldl_markSent_mono rest _ _ (markSent_contains_self _ _)
    · exact ih _ _ h

/-- A flush never removes a fingerprint from the ledger. -/
theorem flush_batch_mono (env : SendEnv) (batch : List ChosenRec)
    (st : List String × Bool) (b : String) (h : st.1.contains b = true) :
    ((flush_batch env batch st).1).contains b = true := by
  rcases batch with _ | ⟨x, _ | ⟨y, rest⟩⟩
  · exact h
  · unfold flush_batch
    dsimp only
    split_ifs with hs
    · exact markSent_mono _ _ _ h
    · exact h
  · unfold flush_batch
    dsimp only
    split_ifs with hs
    · exact foldl_markSent_mono _ _ _ h
    · exact h

/-- The chunking loop never removes a fingerprint from the ledger. -/
theorem batchLoop_mono (env : SendEnv) (chosen : List ChosenRec) :
    ∀ (cur : List ChosenRec) (st : List String × Bool) (b : String),
    st.1.contains b = true → ((batchLoop env chosen cur st).1).contains b = true := by
  induction chosen with
  | nil => exact fun cur st b h => flush_batch_mono env cur st b h
  | cons it rest ih =>
    intro cur st b h
    unfold batchLoop
    dsimp only
    split_ifs with hl
    · exact ih _ _ _ (flush_batch_mono env _ st b h)
    · exact ih _ _ _ h

/-- Claim C2: a failed multi-item (size at least two) group send marks
nothing of the group; a successful one marks every member; a failed
single-item send marks nothing (and a successful one marks exactly that
item); and once marked, a fingerprint survives all later flushes of the
pass, so a failure in one group does not affect the markings of other
successful sends. -/
theorem c2_batch_atomicity :
    (∀ (env : SendEnv) (st : List String × Bool) (batch : List ChosenRec),
      2 ≤ batch.length → env.sendGroup batch = false →
      flush_batch env batch st = st) ∧
    (∀ (env : SendEnv) (st : List String × Bool) (batch : List ChosenRec),
      2 ≤ batch.length → env.sendGroup batch = true →
      ∀ c ∈ batch,
        ((flush_batch env batch st).1).contains (make_id c.item.title c.item.link) = true) ∧
    (∀ (env : SendEnv) (st : List String × Bool) (x : ChosenRec),
      env.sendSingle x = false → flush_batch env [x] st = st) ∧
    (∀ (env : SendEnv) (st : List String × Bool) (x : ChosenRec),
      env.sendSingle x = true →
      flush_batch env [x] st = (markSent st.1 (make_id x.item.title x.item.link), true)) ∧
    (∀ (env : SendEnv) (chosen cur : List ChosenRec) (st : List String × Bool) (b : String),
      st.1.contains b = true → ((batchLoop env chosen cur st).1).contains b = true) := by
  refine ⟨?_, ?_, ?_, ?_, fun env chosen cur st b h => batchLoop_mono env chosen cur st b h⟩
  · intro env st batch hlen hg
    rcases batch with _ | ⟨x, _ | ⟨y, rest⟩⟩
    · simp at hlen
    · simp at hlen
    · simp [flush_batch, hg]
  · intro env st batch hlen hg c hc
    rcases batch with _ | ⟨x, _ | ⟨y, rest⟩⟩
    · simp at hlen
    · simp at hlen
    · simp only [flush_batch, hg, if_pos]
      exact foldl_markSent_contains _ _ _ hc
  · intro env st x hs
    simp [flush_batch, hs]
  · intro env st x hs
    simp [flush_batch, hs]

/-- Witness for C2 at concrete inputs: a failing two-item group marks
nothing, a succeeding two-item group marks both members, a failing single
send marks nothing, a succeeding one marks its item, and an existing mark
survives a later pass of the loop. -/
theorem c2_batch_atomicity_witness :
    flush_batch ⟨fun _ => true, fun _ => false⟩
        [⟨⟨"a", "la", "", 0, "", "", none, none⟩, "p", false⟩,
         ⟨⟨"b", "lb", "", 0, "", "", none, none⟩, "p", false⟩] ([], false) = ([], false) ∧
    ((flush_batch ⟨fun _ => true, fun _ => true⟩
        [⟨⟨"a", "la", "", 0, "", "", none, none⟩, "p", false⟩,
         ⟨⟨"b", "lb", "", 0, "", "", none, none⟩, "p", false⟩] ([], false)).1).contains
      (make_id "b" "lb") = true ∧
    flush_batch ⟨fun _ => false, fun _ => true⟩
        [⟨⟨"a", "la", "", 0, "", "", none, none⟩, "p", false⟩] ([], false) = ([], false) ∧
    ((batchLoop ⟨fun _ => false, fun _ => false⟩
        [⟨⟨"c", "lc", "", 0, "", "", none, none⟩, "p", false⟩] []
        (["m"], false)).1).contains "m" = true := by
  refine ⟨?_, ?_, ?_, ?_⟩
  · exact c2_batch_atomicity.1 ⟨fun _ => true, fun _ => false⟩ ([], false) _ (by decide) rfl
  · exact c2_batch_atomicity.2.1 ⟨fun _ => true, fun _ => true⟩ ([], false) _ (by decide) rfl
      ⟨⟨"b", "lb", "", 0, "", "", none, none⟩, "p", false⟩ (by simp)
  · exact c2_batch_atomicity.2.2.1 ⟨fun _ => false, fun _ => true⟩ ([], false) _ rfl
  · exact c2_batch_atomicity.2.2.2.2 ⟨fun _ => false, fun _ => false⟩ _ [] (["m"], false) "m"
      (by decide)

/-- When a strategy fails on every candidate, its counted first-some run
returns none after calling the strategy once per candidate. -/
theorem firstSomeCount_none (f : String → Option String) :
    ∀ (l : List String), (∀ u ∈ l, f u = none) → firstSomeCount f l = (none, l.length) := by
  intro l
  induction l with
  | nil => intro _; rfl
  | cons u rest ih =>
    intro h
    unfold firstSomeCount
    rw [h u (List.mem_cons_self u rest)]
    rw [ih (fun v hv => h v (List.mem_cons_of_mem u hv))]
    rfl

/-- Claim C6 counterexample: an entry whose direct link has an off-aggregator
host (per _is_google_host) but mentions news.google. in its query string is
not returned by the fast path; the query-parameter, base64, and live-fetch
strategies are all attempted. -/
theorem c6_host_vs_substring_counterexample :
    is_google_host (urlparse "https://realpub.example.com/a?ref=news.google.com").netloc
      = false ∧
    (publisher_url_from_entry ⟨fun _ => none⟩
      ⟨"t", "https://realpub.example.com/a?ref=news.google.com", "", "", [], [], [], [],
       none, none, 0⟩).2 = ⟨1, 1, 1⟩ := by
  decide

/-- Claim C6 as amended: the fast path triggers on the absence of the
substring news.google. in the candidate URL string, not on its host; an
entry whose link lacks that substring is returned immediately with no later
strategy attempted. -/
theorem c6_fast_path_on_substring (env : DecodeEnv) (e : RawEntry)
    (h1 : e.link ≠ "") (h2 : strContains e.link "news.google." = false) :
    publisher_url_from_entry env e = (e.link, ⟨0, 0, 0⟩) := by
  unfold publisher_url_from_entry candidatesOf
  rw [if_pos h1, List.singleton_append]
  dsimp only
  rw [List.find?_cons_of_pos _ (by simp [h2])]

/-- Witness for C6 as amended at a concrete entry: an off-aggregator link is
returned with all strategy counters at zero. -/
theorem c6_fast_path_on_substring_witness :
    publisher_url_from_entry ⟨fun _ => none⟩
      ⟨"t", "https://pub.example/a", "", "", [], [], [], [], none, none, 0⟩ =
      ("https://pub.example/a", ⟨0, 0, 0⟩) :=
  c6_fast_path_on_substring ⟨fun _ => none⟩ _ (by decide) (by decide)

/-- Claim C5 counterexample: for an aggregator entry none of whose static
strategies succeeds, publisher_url_from_entry itself performs the live HTML
fetch (network I/O), and exhausting every strategy returns the original
aggregator link, not a none result. -/
theorem c5_decoder_counterexample :
    (publisher_url_from_entry ⟨fun _ => none⟩
      ⟨"t", "https://news.google.com/articles/zzz", "", "", [], [], [], [],
       none, none, 0⟩).2.htmlFetches = 1 ∧
    (publisher_url_from_entry ⟨fun _ => none⟩
      ⟨"t", "https://news.google.com/articles/zzz", "", "", [], [], [], [],
       none, none, 0⟩).1 = "https://news.google.com/articles/zzz" := by
  decide

/-- Claim C5 as amended: the static strategies are pure and fall through on
failure, but when they all fail the decoder escalates to a live HTML fetch
of every aggregator candidate, and when that also fails it returns the first
candidate link (the empty string only for an entry with no candidates) —
never a distinguished none. -/
theorem c5_decoder_escalates_to_network (env : DecodeEnv) (e : RawEntry)
    (h1 : ∀ u ∈ candidatesOf e, strContains u "news.google." = true)
    (h2 : ∀ u ∈ candidatesOf e, extract_direct_from_gnews u = none)
    (h3 : ∀ u ∈ candidatesOf e, decode_gnews_articles u = none)
    (h4 : (hrefFindall (entrySummary e)).find? (fun href =>
        pyStartsWith href "http" && !strContains href "news.google.") = none)
    (h5 : ∀ u, env.htmlExtract u = none) :
    publisher_url_from_entry env e =
      ((candidatesOf e).headD "",
       ⟨(candidatesOf e).length, (candidatesOf e).length, (candidatesOf e).length⟩) := by
  unfold publisher_url_from_entry
  dsimp only
  have hfind : (candidatesOf e).find? (fun u => !strContains u "news.google.") = none := by
    rw [List.find?_eq_none]
    intro u hu
    simp [h1 u hu]
  rw [hfind, firstSomeCount_none extract_direct_from_gnews _ h2,
    firstSomeCount_none decode_gnews_articles _ h3, h4]
  have hfilt : (candidatesOf e).filter (fun u => strContains u "news.google.") =
      candidatesOf e :=
    List.filter_eq_self.mpr h1
  rw [hfilt, firstSomeCount_none env.htmlExtract _ (fun u _ => h5 u)]

/-- Witness for C5 as amended at a concrete aggregator entry: every static
strategy fails, the live fetch is counted once, and the aggregator link
itself comes back. -/
theorem c5_decoder_escalates_to_network_witness :
    publisher_url_from_entry ⟨fun _ => none⟩
      ⟨"t", "https://news.google.com/articles/zzz", "", "", [], [], [], [],
       none, none, 0⟩ =
      ("https://news.google.com/articles/zzz", ⟨1, 1, 1⟩) := by
  rw [c5_decoder_escalates_to_network ⟨fun _ => none⟩
    ⟨"t", "https://news.google.com/articles/zzz", "", "", [], [], [], [], none, none, 0⟩
    (by decide) (by decide) (by decide) (by decide) (fun _ => rfl)]
  decide

/-- The firm-up stage touches only the firm-up counters. -/
theorem firmupStage_counters (env : AlbumEnv) (f : String) (st : AlbumState) :
    (firmupStage env f st).2.budget = st.budget ∧
    (firmupStage env f st).2.scrapes = st.scrapes ∧
    (firmupStage env f st).2.guardedScrapes = st.guardedScrapes ∧
    (firmupStage env f st).2.fallbackScrapes = st.fallbackScrapes := by
  unfold firmupStage
  repeat' split
  all_goals exact ⟨rfl, rfl, rfl, rfl⟩

/-- The guarded OG site makes at most one attempt, only when the budget is
positive, decrementing the budget by exactly one per attempt, and never
touches the fallback counter. -/
theorem ogGuardStage_counters (cfg : PassConfig) (env : AlbumEnv) (vid : Option String)
    (fl : String) (img0 : Option String) (st1 : AlbumState) :
    ((ogGuardStage cfg env vid fl img0 st1).2.2.guardedScrapes ≤ st1.guardedScrapes + 1) ∧
    (st1.guardedScrapes ≤ (ogGuardStage cfg env vid fl img0 st1).2.2.guardedScrapes) ∧
    ((ogGuardStage cfg env vid fl img0 st1).2.2.budget +
      ((ogGuardStage cfg env vid fl img0 st1).2.2.guardedScrapes - st1.guardedScrapes)
      = st1.budget) ∧
    ((ogGuardStage cfg env vid fl img0 st1).2.2.scrapes + st1.guardedScrapes =
      st1.scrapes + (ogGuardStage cfg env vid fl img0 st1).2.2.guardedScrapes) ∧
    ((ogGuardStage cfg env vid fl img0 st1).2.2.fallbackScrapes = st1.fallbackScrapes) ∧
    (st1.budget = 0 →
      (ogGuardStage cfg env vid fl img0 st1).2.2.guardedScrapes = st1.guardedScrapes) := by
  unfold ogGuardStage
  split
  case isTrue h =>
    have hb : 0 < st1.budget := by
      simp only [Bool.and_eq_true, decide_eq_true_eq] at h
      exact h.2
    rcases env.fetchOg st1.scrapes with _ | o
    · dsimp only
      exact ⟨by omega, by omega, by omega, by omega, rfl, fun h0 => by omega⟩
    · dsimp only
      split_ifs with ho
    
      all_goals dsimp only
      all_goals exact ⟨by omega, by omega, by omega, by omega, rfl, fun h0 => by omega⟩
  case isFalse h =>
    dsimp only
    exact ⟨by omega, by omega, by omega, by omega, rfl, fun _ => rfl⟩

/-- The download stage touches only the download counter. -/
theorem downloadStage_counters (env : AlbumEnv) (aid : String) (vid img1 : Option String)
    (usedOg : Bool) (st2 : AlbumState) :
    (downloadStage env aid vid img1 usedOg st2).2.budget = st2.budget ∧
    (downloadStage env aid vid img1 usedOg st2).2.scrapes = st2.scrapes ∧
    (downloadStage env aid vid img1 usedOg st2).2.guardedScrapes = st2.guardedScrapes ∧
    (downloadStage env aid vid img1 usedOg st2).2.fallbackScrapes = st2.fallbackScrapes := by
  unfold downloadStage
  split_ifs with hv
  all_goals dsimp only
  all_goals split_ifs with hi
  all_goals dsimp only
  all_goals exact ⟨rfl, rfl, rfl, rfl⟩

/-- The fallback OG site makes at most one attempt, never consults or
changes the budget, and never touches the guarded counter. -/
theorem fallbackOgStage_counters (cfg : PassConfig) (env : AlbumEnv) (aid fl : String)
    (local2 : Option String) (st4 : AlbumState) :
    (fallbackOgStage cfg env aid fl local2 st4).2.budget = st4.budget ∧
    (fallbackOgStage cfg env aid fl local2 st4).2.guardedScrapes = st4.guardedScrapes ∧
    (st4.fallbackScrapes ≤ (fallbackOgStage cfg env aid fl local2 st4).2.fallbackScrapes) ∧
    ((fallbackOgStage cfg env aid fl local2 st4).2.fallbackScrapes ≤ st4.fallbackScrapes + 1) ∧
    ((fallbackOgStage cfg env aid fl local2 st4).2.scrapes + st4.fallbackScrapes =
      st4.scrapes + (fallbackOgStage cfg env aid fl local2 st4).2.fallbackScrapes) := by
  unfold fallbackOgStage
  split
  case isTrue h =>
    rcases env.fetchOg st4.scrapes with _ | o
    · dsimp only
      exact ⟨rfl, rfl, by omega, by omega, by omega⟩
    · dsimp only
      split_ifs with ho
      all_goals dsimp only
      all_goals exact ⟨rfl, rfl, by omega, by omega, by omega⟩
  case isFalse h =>
    dsimp only
    exact ⟨rfl, rfl, by omega, by omega, by omega⟩

/-- Claim C1 counterexample: with the budget already at zero, an item whose
image download fails still triggers an OG scrape through the unguarded
fallback site, and no decrement happens, so not every scrape of a pass is
budget-guarded. -/
theorem c1_scrape_at_zero_budget_counterexample :
    ((processItem ⟨true, true⟩ ⟨fun _ => none, fun u => u, fun _ => none, fun _ _ _ => none⟩
        [] ⟨"t", "https://agg.example/1", "https://pub.example/a", 0, "", "sea",
            some "https://pub.example/i.jpg", none⟩
        ⟨0, 0, 0, 0, 0, 0, 0⟩).2.scrapes = 1) ∧
    ((processItem ⟨true, true⟩ ⟨fun _ => none, fun u => u, fun _ => none, fun _ _ _ => none⟩
        [] ⟨"t", "https://agg.example/1", "https://pub.example/a", 0, "", "sea",
            some "https://pub.example/i.jpg", none⟩
        ⟨0, 0, 0, 0, 0, 0, 0⟩).2.guardedScrapes = 0) ∧
    ((processItem ⟨true, true⟩ ⟨fun _ => none, fun u => u, fun _ => none, fun _ _ _ => none⟩
        [] ⟨"t", "https://agg.example/1", "https://pub.example/a", 0, "", "sea",
            some "https://pub.example/i.jpg", none⟩
        ⟨0, 0, 0, 0, 0, 0, 0⟩).2.fallbackScrapes = 1) := by
  decide

/-- Claim C1 as amended: the budget-guarded scrape site attempts at most one
scrape per item, only ever when the budget is positive, and decrements the
shared budget by exactly one per attempt regardless of the scrape's outcome;
but the post-download-failure fallback scrape site neither consults nor
decrements the budget, so a pass can still issue scrapes (through that site)
after the budget reaches zero, and every scrape of an item comes from one of
these two sites. -/
theorem c1_budget_guarded_site_only (cfg : PassConfig) (env : AlbumEnv)
    (sent : List String) (it : ItemRec) (st : AlbumState) :
    ((processItem cfg env sent it st).2.guardedScrapes ≤ st.guardedScrapes + 1) ∧
    (st.guardedScrapes ≤ (processItem cfg env sent it st).2.guardedScrapes) ∧
    ((processItem cfg env sent it st).2.budget +
      ((processItem cfg env sent it st).2.guardedScrapes - st.guardedScrapes) = st.budget) ∧
    (st.fallbackScrapes ≤ (processItem cfg env sent it st).2.fallbackScrapes) ∧
    ((processItem cfg env sent it st).2.fallbackScrapes ≤ st.fallbackScrapes + 1) ∧
    ((processItem cfg env sent it st).2.scrapes + st.guardedScrapes + st.fallbackScrapes =
      st.scrapes + (processItem cfg env sent it st).2.guardedScrapes +
        (processItem cfg env sent it st).2.fallbackScrapes) ∧
    (st.budget = 0 →
      (processItem cfg env sent it st).2.guardedScrapes = st.guardedScrapes) := by
  unfold processItem
  dsimp only
  split
  case isTrue h =>
    dsimp only
    exact ⟨by omega, by omega, by omega, by omega, by omega, by omega, fun _ => rfl⟩
  case isFalse h =>
    generalize (if it.publisherLink ≠ "" then it.publisherLink
      else if it.link ≠ "" then it.link else "") = fl0
    generalize (if pyTruthy it.img && is_placeholder_image (it.img.getD "")
      then none else it.img) = img0v
    rcases hf : firmupStage env fl0 st with ⟨fl, st1⟩
    have hfc := firmupStage_counters env fl0 st
    rw [hf] at hfc
    rcases hg : ogGuardStage cfg env it.vid fl img0v st1 with ⟨img1, usedOg, st2⟩
    have hgc := ogGuardStage_counters cfg env it.vid fl img0v st1
    rw [hg] at hgc
    dsimp only at hfc hgc ⊢
    split
    case isTrue h2 =>
      dsimp only
      refine ⟨by omega, by omega, by omega, by omega, by omega, by omega,
        fun h0 => by have := hgc.2.2.2.2.2 (by omega); omega⟩
    case isFalse h2 =>
      rcases hd : downloadStage env (make_id it.title it.link) it.vid img1 usedOg st2
        with ⟨local2, st4⟩
      have hdc := downloadStage_counters env (make_id it.title it.link) it.vid img1 usedOg st2
      rw [hd] at hdc
      rcases hb : fallbackOgStage cfg env (make_id it.title it.link) fl local2 st4
        with ⟨local3, st5⟩
      have hbc := fallbackOgStage_counters cfg env (make_id it.title it.link) fl local2 st4
      rw [hb] at hbc
      dsimp only at hdc hbc
      rcases local3 with _ | p
      · dsimp only
        refine ⟨by omega, by omega, by omega, by omega, by omega, by omega,
          fun h0 => by have := hgc.2.2.2.2.2 (by omega); omega⟩
      · dsimp only
        split
        all_goals dsimp only
        all_goals refine ⟨by omega, by omega, by omega, by omega, by omega, by omega,
          fun h0 => by have := hgc.2.2.2.2.2 (by omega); omega⟩

/-- Witness for C1 as amended at a concrete input: a guarded scrape with
budget three decrements to two with one guarded attempt recorded. -/
theorem c1_budget_guarded_site_only_witness :
    ((processItem ⟨true, true⟩ ⟨fun _ => none, fun u => u, fun _ => some "https://og.example/i.jpg",
        fun _ _ _ => some "data/images/p.jpg"⟩
      [] ⟨"t", "https://agg.example/1", "https://pub.example/a", 0, "", "sea", none, none⟩
      ⟨3, 0, 0, 0, 0, 0, 0⟩).2.budget +
      ((processItem ⟨true, true⟩ ⟨fun _ => none, fun u => u, fun _ => some "https://og.example/i.jpg",
          fun _ _ _ => some "data/images/p.jpg"⟩
        [] ⟨"t", "https://agg.example/1", "https://pub.example/a", 0, "", "sea", none, none⟩
        ⟨3, 0, 0, 0, 0, 0, 0⟩).2.guardedScrapes - 0) = 3) ∧
    ((processItem ⟨true, true⟩ ⟨fun _ => none, fun u => u, fun _ => some "https://og.example/i.jpg",
        fun _ _ _ => some "data/images/p.jpg"⟩
      [] ⟨"t", "https://agg.example/1", "https://pub.example/a", 0, "", "sea", none, none⟩
      ⟨0, 0, 0, 0, 0, 0, 0⟩).2.guardedScrapes = 0) := by
  constructor
  · exact (c1_budget_guarded_site_only ⟨true, true⟩
      ⟨fun _ => none, fun u => u, fun _ => some "https://og.example/i.jpg",
       fun _ _ _ => some "data/images/p.jpg"⟩ []
      ⟨"t", "https://agg.example/1", "https://pub.example/a", 0, "", "sea", none, none⟩
      ⟨3, 0, 0, 0, 0, 0, 0⟩).2.2.1
  · exact (c1_budget_guarded_site_only ⟨true, true⟩
      ⟨fun _ => none, fun u => u, fun _ => some "https://og.example/i.jpg",
       fun _ _ _ => some "data/images/p.jpg"⟩ []
      ⟨"t", "https://agg.example/1", "https://pub.example/a", 0, "", "sea", none, none⟩
      ⟨0, 0, 0, 0, 0, 0, 0⟩).2.2.2.2.2.2 rfl

/-- Claim C3 counterexample: a pass whose only feed entry is already in the
sent-ledger still performs link resolution: fetch_category_news runs
publisher_url_from_entry once for the entry (the fetch stage never consults
the ledger), so an already-delivered entry is re-resolved. -/
theorem c3_resolution_before_ledger_counterexample :
    already_sent [make_id "T" "https://news.google.com/articles/zzz"]
      (make_id "T" "https://news.google.com/articles/zzz") = true ∧
    (fetch_category_news ⟨fun _ => none⟩ "sea"
      [[⟨"T", "https://news.google.com/articles/zzz", "", "", [], [], [], [],
         none, none, 5⟩]] 0).2 = 1 := by
  constructor
  · simp [already_sent]
  · rfl

/-- Claim C3 as amended: the sent-ledger is consulted at the top of per-item
processing in the delivery stage — before the link firm-up fetches, the OG
scrapes, the media downloads, and delivery — so an already-sent item is
skipped there with no oracle call and no state change; but link resolution
(publisher_url_from_entry) runs during feed fetching, before any ledger
check, so an already-sent entry still has its link re-resolved each pass. -/
theorem c3_ledger_skip_before_work (cfg : PassConfig) (env : AlbumEnv)
    (sent : List String) (it : ItemRec) (st : AlbumState)
    (h : already_sent sent (make_id it.title it.link) = true) :
    processItem cfg env sent it st = (none, st) := by
  simp [processItem, h]

/-- Witness for C3 as amended at a concrete input: an item whose fingerprint
is in the ledger is dropped with the pass state unchanged. -/
theorem c3_ledger_skip_before_work_witness :
    processItem ⟨true, true⟩ ⟨fun _ => none, fun u => u, fun _ => none, fun _ _ _ => none⟩
      [make_id "T" "L"] ⟨"T", "L", "", 0, "", "sea", none, none⟩ ⟨9, 0, 0, 0, 0, 0, 0⟩ =
      (none, ⟨9, 0, 0, 0, 0, 0, 0⟩) :=
  c3_ledger_skip_before_work ⟨true, true⟩
    ⟨fun _ => none, fun u => u, fun _ => none, fun _ _ _ => none⟩
    [make_id "T" "L"] ⟨"T", "L", "", 0, "", "sea", none, none⟩ ⟨9, 0, 0, 0, 0, 0, 0⟩
    (by simp [already_sent])

/-- findSome? respects pointwise-equal functions on the list. -/
theorem findSome?_congr_mem {α β : Type} (l : List α) (f g : α → Option β)
    (h : ∀ x ∈ l, f x = g x) : l.findSome? f = l.findSome? g := by
  induction l with
  | nil => rfl
  | cons a t ih =>
    simp only [List.findSome?]
    rw [h a (List.mem_cons_self a t)]
    cases g a with
    | some b => rfl
    | none => exact ih (fun x hx => h x (List.mem_cons_of_mem a hx))

/-- findSome? over an append tries the first list, then the second. -/
theorem findSome?_append_eq {α β : Type} (l1 l2 : List α) (f : α → Option β) :
    (l1 ++ l2).findSome? f =
      match l1.findSome? f with
      | some b => some b
      | none => l2.findSome? f := by
  induction l1 with
  | nil => rfl
  | cons a t ih =>
    simp only [List.cons_append, List.findSome?]
    cases f a with
    | some b => rfl
    | none => exact ih

/-- findSome? over a flatMap is the nested first-success search. -/
theorem findSome?_flatMap_eq {α β γ : Type} (l : List α) (g : α → List β) (f : β → Option γ) :
    (l.flatMap g).findSome? f = l.findSome? (fun a => (g a).findSome? f) := by
  induction l with
  | nil => rfl
  | cons a t ih =>
    simp only [List.flatMap_cons, List.findSome?]
    rw [findSome?_append_eq]
    cases (g a).findSome? f with
    | some b => rfl
    | none => exact ih

/-- findSome? over a map composes the functions. -/
theorem findSome?_map_eq {α β γ : Type} (l : List α) (g : α → β) (f : β → Option γ) :
    (l.map g).findSome? f = l.findSome? (fun x => f (g x)) := by
  induction l with
  | nil => rfl
  | cons a t ih =>
    simp only [List.map_cons, List.findSome?]
    cases f (g a) with
    | some b => rfl
    | none => exact ih

/-- A witness violating p somewhere in the list forces all to be false. -/
theorem any_not_imp_all_false (l : List Char) (p : Char → Bool)
    (h : l.any (fun c => !p c) = true) : l.all p = false := by
  obtain ⟨x, hx, hpx⟩ := List.any_eq_true.mp h
  rw [Bool.not_eq_true'] at hpx
  by_contra hc
  rw [Bool.not_eq_false] at hc
  have hpt := List.all_eq_true.mp hc x hx
  rw [hpt] at hpx
  cases hpx

/-- No violation of p anywhere in the list forces all to be true. -/
theorem any_not_false_imp_all (l : List Char) (p : Char → Bool)
    (h : l.any (fun c => !p c) = false) : l.all p = true := by
  refine List.all_eq_true.mpr fun x hx => ?_
  by_contra hcx
  have hfx : (!p x) = true := by
    rw [Bool.not_eq_true']
    simpa using hcx
  have hany : l.any (fun c => !p c) = true := by
    rw [List.any_eq_true]
    exact ⟨x, hx, hfx⟩
  rw [h] at hany
  cases hany

/-- A token substring keeping its start and moving its end later contains
every character of the shorter substring, so a violation persists. -/
theorem subTok_any_mono (tl : List Char) (p : Char → Bool) (i j j2 : Nat)
    (hj : j ≤ j2) (h : (subTok tl i j).any p = true) :
    (subTok tl i j2).any p = true := by
  unfold subTok at h ⊢
  obtain ⟨x, hx, hpx⟩ := List.any_eq_true.mp h
  refine List.any_eq_true.mpr ⟨x, ?_, hpx⟩
  have hsplit : (tl.drop i).take (j - i) = ((tl.drop i).take (j2 - i)).take (j - i) := by
    rw [List.take_take]
    congr 1
    omega
  rw [hsplit] at hx
  exact List.mem_of_mem_take hx

/-- The character at the start index belongs to every nonempty token substring. -/
theorem getD_mem_subTok (tl : List Char) (i j : Nat) (hi : i < tl.length)
    (hj : i + 1 ≤ j) : tl.getD i ' ' ∈ subTok tl i j := by
  unfold subTok
  rw [List.getD_eq_getElem tl ' ' hi, List.drop_eq_getElem_cons hi]
  have hs : j - i = (j - i - 1) + 1 := by omega
  rw [hs, List.take_succ_cons]
  exact List.mem_cons_self _ _

/-- The inner scan loop (with its break at the first non-alphabet
character) equals the first-success search over the same end-index range
restricted to all-alphabet substrings. -/
theorem scanInner_eq_findSome (tl : List Char) (i : Nat) :
    ∀ (fuel j : Nat),
    scanInner tl i j fuel = (List.range' j fuel).findSome? (fun j2 =>
      if (subTok tl i j2).all gnewsAlphaChar then
        try_b64_http (String.mk (subTok tl i j2))
      else none) := by
  intro fuel
  induction fuel with
  | zero => intro j; rfl
  | succ fuel ih =>
    intro j
    show scanInner tl i j (fuel + 1) =
      (j :: List.range' (j + 1) fuel).findSome? _
    unfold scanInner
    simp only [List.findSome?]
    by_cases hbad : (subTok tl i j).any (fun c => !gnewsAlphaChar c) = true
    · rw [if_pos hbad]
      have hall := any_not_imp_all_false _ _ hbad
      rw [hall]
      simp only [Bool.false_eq_true, if_false]
      symm
      refine List.findSome?_eq_none_iff.mpr fun j2 hj2 => ?_
      have hj2b : j + 1 ≤ j2 := (List.mem_range'_1.mp hj2).1
      have hbad2 := subTok_any_mono tl (fun c => !gnewsAlphaChar c) i j j2 (by omega) hbad
      rw [any_not_imp_all_false _ _ hbad2]
      simp
    · rw [if_neg hbad]
      have hall := any_not_false_imp_all _ _ (by simpa using hbad)
      rw [hall]
      simp only [if_true]
      cases try_b64_http (String.mk (subTok tl i j)) with
      | some got => rfl
      | none => exact ih (j + 1)

/-- The outer scan loop equals the first-success search over start indices,
with non-alphabet start positions contributing nothing. -/
theorem scanOuter_eq_findSome (tl : List Char) (n : Nat) :
    ∀ (fuel i : Nat),
    scanOuter tl n i fuel = (List.range' i fuel).findSome? (fun i2 =>
      if gnewsAlphaChar (tl.getD i2 ' ') then
        scanInner tl i2 (i2 + 16) (min (i2 + 200) n + 1 - (i2 + 16))
      else none) := by
  intro fuel
  induction fuel with
  | zero => intro i; rfl
  | succ fuel ih =>
    intro i
    show scanOuter tl n i (fuel + 1) =
      (i :: List.range' (i + 1) fuel).findSome? _
    unfold scanOuter
    simp only [List.findSome?]
    by_cases ha : gnewsAlphaChar (tl.getD i ' ') = true
    · simp only [ha, if_true]
      cases scanInner tl i (i + 16) (min (i + 200) n + 1 - (i + 16)) with
      | some got => rfl
      | none => exact ih (i + 1)
    · simp only [ha, if_false]
      exact ih (i + 1)

/-- The code's substring scan equals the claim-style left-to-right search
restricted to substrings made solely of URL-safe base64 alphabet characters. -/
theorem scanOuter_eq_specAlphaScan (token : String) :
    scanOuter token.toList token.toList.length 0 token.toList.length =
      specAlphaScan token := by
  rw [scanOuter_eq_findSome token.toList token.toList.length token.toList.length 0]
  unfold specAlphaScan candidatePairs
  rw [findSome?_flatMap_eq, List.range_eq_range']
  refine findSome?_congr_mem _ _ _ fun i hi => ?_
  have hin : i < token.toList.length := by
    have := List.mem_range'_1.mp hi
    omega
  rw [findSome?_map_eq]
  by_cases ha : gnewsAlphaChar (token.toList.getD i ' ') = true
  · rw [if_pos ha, scanInner_eq_findSome]
  · rw [if_neg ha]
    symm
    refine List.findSome?_eq_none_iff.mpr fun j hj => ?_
    have hjb : i + 16 ≤ j := (List.mem_range'_1.mp hj).1
    have hmem := getD_mem_subTok token.toList i j hin (by omega)
    have hall : (subTok token.toList i j).all gnewsAlphaChar = false := by
      by_contra hc
      rw [Bool.not_eq_false] at hc
      exact ha (List.all_eq_true.mp hc _ hmem)
    rw [hall]
    simp

/-- Claim C8 counterexample: in the token AAaHR0cHM6.Ly9hLmJi, the substring
from index 2 to the end has length 17, decodes (after padding, discarding
the dot as urlsafe base64 does) to the http-prefixed string https://a.bb,
and is the first such substring scanning left to right; yet the code's scan
skips every substring containing the dot and returns nothing, as does the
whole-token attempt. -/
theorem c8_scan_skips_nonalphabet_counterexample :
    try_b64_http "AAaHR0cHM6.Ly9hLmJi" = none ∧
    claimLooseScan "AAaHR0cHM6.Ly9hLmJi" = some "https://a.bb" ∧
    scanToken "AAaHR0cHM6.Ly9hLmJi" = none ∧
    decode_gnews_articles "https://news.google.com/articles/AAaHR0cHM6.Ly9hLmJi" = none := by
  decide

/-- Claim C8 as amended: the token is padded with equals signs to a multiple
of four characters before urlsafe-base64 decoding, a decode is accepted only
when the resulting text begins with http, and — failing the whole-token
attempt — the scan returns the first substring of length at least 16 and at
most 200, scanning left to right, consisting solely of URL-safe base64
alphabet characters, whose decoding yields an http-prefixed string. -/
theorem c8_token_scan_refinement :
    (∀ s : String, (padEquals s).toList.length % 4 = 0) ∧
    (∀ s t : String, try_b64_http s = some t → pyStartsWith t "http" = true) ∧
    (∀ token : String, scanToken token =
      match try_b64_http token with
      | some got => some got
      | none => specAlphaScan token) := by
  refine ⟨?_, ?_, ?_⟩
  · intro s
    show (s ++ String.mk (List.replicate ((4 - s.toList.length % 4) % 4) '=')).toList.length
      % 4 = 0
    simp only [String.toList, String.data_append]
    simp only [List.length_append, List.length_replicate]
    omega
  · intro s t h
    unfold try_b64_http at h
    split at h
    · cases h
    · dsimp only at h
      split at h
      · cases h
      · split at h
        · cases h
          assumption
        · cases h
  · intro token
    unfold scanToken
    cases h : try_b64_http token with
    | some got => rfl
    | none => exact scanOuter_eq_specAlphaScan token

/-- Witness for C8 as amended at concrete inputs: a padded length is a
multiple of four, a successful decode starts with http, and on a dotted
token the scan agrees with the alphabet-restricted left-to-right search. -/
theorem c8_token_scan_refinement_witness :
    try_b64_http "aHR0cHM6Ly9hLmJi" = some "https://a.bb" ∧
    pyStartsWith "https://a.bb" "http" = true ∧
    scanToken "AAaHR0cHM6Ly9hLmJi" = specAlphaScan "AAaHR0cHM6Ly9hLmJi" := by
  refine ⟨by decide, ?_, ?_⟩
  · exact c8_token_scan_refinement.2.1 "aHR0cHM6Ly9hLmJi" "https://a.bb" (by decide)
  · have h := c8_token_scan_refinement.2.2 "AAaHR0cHM6Ly9hLmJi"
    rw [h]
    have ht : try_b64_http "AAaHR0cHM6Ly9hLmJi" = none := by decide
    rw [ht]

end NewsBot
